import Mathlib

/-!
Verification of the cross-chain swap broker core (settlement driver,
autopost scheduler, offer matcher, trade receipts store) against its
natural-language specification.  The JavaScript sources are shallowly
embedded: pure helper functions become Lean functions, the stateful
driver tick becomes explicit state passing over a `DriverState`
structure, fallible operations return `Except String`.

Modelling conventions (kept uniform throughout the file):
* JS strings are Lean `String`; `String(v || '')` over an optional field
  becomes `Option.getD "" `, JS `||` on strings becomes `jsOr` (empty
  string is the only falsy string that occurs).
* JS `null`/`undefined` on a field is `Option.none`; where the code
  distinguishes the two (receipt patches) a three-valued `Patch` type is
  used.
* Integer-valued envelope fields are modelled post-`toIntOrNull`
  as `Option Int` (absent / unparseable collapses to `none`; the JS code
  truncates to integers, so `Int` is exact).
* `Date.now()` / `Math.floor(Date.now()/1000)` become explicit `now`
  parameters (milliseconds resp. seconds).
* External tool invocations (`runTool`) are oracles: each candidate event
  carries the outcome its tool call would have.
-/

/-- Whitespace recognised by JS `String.prototype.trim` (the characters
that occur in this development: space, tab, LF, CR, VT, FF). -/
def isJsWs (c : Char) : Bool :=
  c == ' ' || c == '\t' || c == '\n' || c == '\r' || c == Char.ofNat 11 || c == Char.ofNat 12

/-- JS `String.prototype.trim`: drop leading and trailing whitespace. -/
def jsTrim (s : String) : String :=
  ⟨((s.data.dropWhile isJsWs).reverse.dropWhile isJsWs).reverse⟩

/-- ASCII lowercasing of one character (JS `toLowerCase` on the ASCII
range used by the protocol's hex and identifier strings). -/
def lowerChar (c : Char) : Char :=
  if 'A' ≤ c ∧ c ≤ 'Z' then Char.ofNat (c.toNat + 32) else c

/-- JS `String.prototype.toLowerCase` (ASCII). -/
def jsLower (s : String) : String :=
  ⟨s.data.map lowerChar⟩

/-- Lowercase hexadecimal digit. -/
def isHexLower (c : Char) : Bool :=
  ('0' ≤ c && c ≤ '9') || ('a' ≤ c && c ≤ 'f')

/-- Hexadecimal digit, either case (for spec-level statements about
"hexadecimal characters"). -/
def isHexAny (c : Char) : Bool :=
  ('0' ≤ c && c ≤ '9') || ('a' ≤ c && c ≤ 'f') || ('A' ≤ c && c ≤ 'F')

/-- `/^[0-9a-f]{n}$/` on an (already lowercased) string. -/
def isLowerHexOfLen (n : Nat) (s : String) : Bool :=
  s.length == n && s.data.all isHexLower

/-- A string of exactly `n` hexadecimal characters (case-insensitive);
spec-level notion used to compare claims against the code's regexes. -/
def isHexOfLen (n : Nat) (s : String) : Bool :=
  s.length == n && s.data.all isHexAny

/-- JS `a || b` on strings (the empty string is falsy). -/
def jsOr (a b : String) : String :=
  if a = "" then b else a

/-- `String(o ?? '')` for an optional string. -/
def optStr (o : Option String) : String :=
  o.getD ""

/-! ## Autopost scheduler (`src/src/prompt/autopost.js`)

The manager schedules periodic republication of offer/RFQ listings.
Only the two allowlisted tools exist.  `args` are modelled as the two
fields the scheduler manipulates (`ttl_sec`, `valid_until_unix`) plus an
opaque remainder that is cloned untouched. -/

/-- Frozen argument snapshot of an autopost job (`safeCloneArgs` image). -/
structure ApArgs where
  ttl_sec : Option Int
  valid_until_unix : Option Int
  other : List (String × String)
deriving DecidableEq, Repr

/-- `clampInt` of autopost.js: despite the name it *validates* — it
throws when the value is below `min` or above `max`, and never changes
the value.  A `none` bound means the bound was not supplied. -/
def apClampInt (n : Int) (lo hi : Option Int) : Except String Int :=
  match lo with
  | some m =>
    if n < m then .error ("must be >= " ++ toString m)
    else match hi with
      | some M => if n > M then .error ("must be <= " ++ toString M) else .ok n
      | none => .ok n
  | none =>
    match hi with
    | some M => if n > M then .error ("must be <= " ++ toString M) else .ok n
    | none => .ok n

/-- Parameters of `AutopostManager.start`.  `interval_sec = none` models
a missing / non-integer value (which `clampInt` rejects with
"must be an integer"). -/
structure ApStartParams where
  name : String
  tool : String
  interval_sec : Option Int
  ttl_sec : Option Int
  valid_until_unix : Option Int
  args : ApArgs
deriving Repr

/-- An autopost job as built by `start` (scheduling fields only). -/
structure ApJob where
  name : String
  tool : String
  intervalSec : Int
  ttlSec : Int
  validUntilUnix : Int
  args : ApArgs
deriving DecidableEq, Repr

/-- Validation and job construction of `AutopostManager.start`
(autopost.js lines 56-96): name/tool checks, `clampInt` range checks on
`interval_sec` and `ttl_sec`, expiry computation and horizon checks. -/
def autopostStart (nowSec : Int) (existingNames : List String) (p : ApStartParams) :
    Except String ApJob := do
  let n := jsTrim p.name
  if n = "" then throw "autopost_start: name is required"
  if existingNames.contains n then throw ("autopost_start: name already exists (" ++ n ++ ")")
  let t := jsTrim p.tool
  if ¬ (t = "intercomswap_offer_post" ∨ t = "intercomswap_rfq_post") then
    throw "autopost_start: tool not allowed"
  let intervalSec ← match p.interval_sec with
    | none => throw "must be an integer"
    | some iv => apClampInt iv (some 1) (some 86400)
  let ttlSec ← match p.ttl_sec with
    | none => throw "autopost_start: ttl_sec is required"
    | some tv => apClampInt tv (some 10) (some 604800)
  let validUntilUnixRaw ← match p.valid_until_unix with
    | none => pure (none : Option Int)
    | some v => (apClampInt v (some 1) none).map some
  let validUntilUnix := validUntilUnixRaw.getD (nowSec + ttlSec)
  if validUntilUnix ≤ nowSec then throw "autopost_start: valid_until_unix must be in the future"
  let horizon := validUntilUnix - nowSec
  if horizon < 10 then throw "autopost_start: validity horizon too short"
  if horizon > 604800 then throw "autopost_start: validity horizon too long (max 7 days)"
  pure { name := n, tool := t, intervalSec := intervalSec, ttlSec := ttlSec,
         validUntilUnix := validUntilUnix, args := p.args }

/-- Result of one `runOnce` invocation: either the job expired (timer
cleared, job deleted, no publish) or the publish tool is invoked with
the rebuilt `runArgs`. -/
inductive ApRunResult
  | stopped
  | published (runArgs : ApArgs)
deriving DecidableEq, Repr

/-- `runArgs` shaping of `runOnce` (autopost.js lines 110-117): clone the
frozen snapshot, for offer posts delete `ttl_sec`, and for both tools
overwrite `valid_until_unix` with the job's fixed value. -/
def apShapeRunArgs (j : ApJob) : ApArgs :=
  if j.tool = "intercomswap_offer_post" then
    { j.args with ttl_sec := none, valid_until_unix := some j.validUntilUnix }
  else if j.tool = "intercomswap_rfq_post" then
    { j.args with valid_until_unix := some j.validUntilUnix }
  else j.args

/-- `runOnce` (autopost.js lines 98-131), up to the tool invocation:
expiry self-destruct check, then args shaping. -/
def apRunOnce (nowSec : Int) (j : ApJob) : ApRunResult :=
  if nowSec ≥ j.validUntilUnix then .stopped else .published (apShapeRunArgs j)

/-- Result of one `setInterval` handler firing (autopost.js lines
142-155): expiry deletes the job; otherwise `runOnce` is queued. -/
inductive ApTickResult
  | stopped
  | queuedRun
deriving DecidableEq, Repr

/-- The interval tick handler's own expiry gate. -/
def apIntervalTick (nowSec : Int) (j : ApJob) : ApTickResult :=
  if nowSec ≥ j.validUntilUnix then .stopped else .queuedRun

/-! ### Shared extraction lemmas for `autopostStart` -/

theorem apClampInt_eq_ok {n m lo hi : Int} :
    apClampInt n (some lo) (some hi) = .ok m ↔ m = n ∧ lo ≤ n ∧ n ≤ hi := by
  unfold apClampInt
  repeat' split
  all_goals simp_all
  all_goals omega

theorem apClampInt_minOnly_eq_ok {n m lo : Int} :
    apClampInt n (some lo) none = .ok m ↔ m = n ∧ lo ≤ n := by
  unfold apClampInt
  repeat' split
  all_goals simp_all
  all_goals omega

theorem exceptMapSome_clamp_eq_ok {n lo : Int} {v : Option Int} :
    Except.map some (apClampInt n (some lo) none) = .ok v ↔ v = some n ∧ lo ≤ n := by
  unfold apClampInt
  repeat' split
  all_goals simp_all [Except.map, eq_comm]

/-- Everything `autopostStart` guarantees about a job it returns. -/
theorem autopostStart_ok (nowSec : Int) (names : List String)
    (p : ApStartParams) (j : ApJob) (h : autopostStart nowSec names p = .ok j) :
    (j.tool = "intercomswap_offer_post" ∨ j.tool = "intercomswap_rfq_post") ∧
    j.validUntilUnix = (p.valid_until_unix).getD (nowSec + j.ttlSec) ∧
    p.interval_sec = some j.intervalSec ∧ 1 ≤ j.intervalSec ∧ j.intervalSec ≤ 86400 ∧
    p.ttl_sec = some j.ttlSec ∧ 10 ≤ j.ttlSec ∧ j.ttlSec ≤ 604800 ∧
    j.args = p.args := by
  unfold autopostStart at h
  simp only [bind, Except.bind, pure, Except.pure] at h
  repeat' split at h
  all_goals (try (exact Except.noConfusion h))
  all_goals simp only [Except.ok.injEq] at h
  all_goals subst h
  all_goals simp_all [apClampInt_eq_ok, exceptMapSome_clamp_eq_ok]
  all_goals tauto

/-- C2: every run of an autopost job publishes with `valid_until_unix`
equal to the job's value fixed at `start` (the given expiry, or
`now + ttl_sec`); offer posts have `ttl_sec` stripped from the args; and
a run or interval tick at or past the expiry stops the job (deletes it,
clears the timer) instead of publishing. -/
theorem autopost_run_validity_fixed (nowSec : Int) (names : List String)
    (p : ApStartParams) (j : ApJob) (h : autopostStart nowSec names p = .ok j) :
    j.validUntilUnix = (p.valid_until_unix).getD (nowSec + j.ttlSec) ∧
    (∀ t a, apRunOnce t j = .published a →
        a.valid_until_unix = some j.validUntilUnix ∧
        (j.tool = "intercomswap_offer_post" → a.ttl_sec = none) ∧
        t < j.validUntilUnix) ∧
    (∀ t, j.validUntilUnix ≤ t →
        apRunOnce t j = .stopped ∧ apIntervalTick t j = .stopped) := by
  obtain ⟨htool, hfix, -⟩ := autopostStart_ok nowSec names p j h
  refine ⟨hfix, ?_, ?_⟩
  · intro t a hrun
    unfold apRunOnce at hrun
    split at hrun
    · exact ApRunResult.noConfusion hrun
    · rename_i hlt
      simp only [ApRunResult.published.injEq] at hrun
      subst hrun
      unfold apShapeRunArgs
      rcases htool with hOff | hRfq
      · simp [hOff]
        omega
      · rcases Decidable.em (j.tool = "intercomswap_offer_post") with hO | hO
        · simp [hO]; omega
        · simp [hO, hRfq]
          omega
  · intro t ht
    unfold apRunOnce apIntervalTick
    constructor
    · simp [ht]
    · simp [ht]

/-- Concrete job used by the autopost witnesses. -/
def apArgs0 : ApArgs := { ttl_sec := some 60, valid_until_unix := some 999, other := [] }

/-- Concrete well-formed `start` parameters. -/
def apP0 : ApStartParams :=
  { name := "a", tool := "intercomswap_offer_post", interval_sec := some 5,
    ttl_sec := some 60, valid_until_unix := none, args := apArgs0 }

/-- The job `autopostStart 1000 [] apP0` creates. -/
def apJ0 : ApJob :=
  { name := "a", tool := "intercomswap_offer_post", intervalSec := 5, ttlSec := 60,
    validUntilUnix := 1060, args := apArgs0 }

/-- Witness for C2: the theorem applied to a concrete started job. -/
theorem autopost_run_validity_fixed_witness :
    apJ0.validUntilUnix = ((none : Option Int)).getD (1000 + apJ0.ttlSec) ∧
    (∀ t a, apRunOnce t apJ0 = .published a →
        a.valid_until_unix = some apJ0.validUntilUnix ∧
        (apJ0.tool = "intercomswap_offer_post" → a.ttl_sec = none) ∧
        t < apJ0.validUntilUnix) ∧
    (∀ t, apJ0.validUntilUnix ≤ t →
        apRunOnce t apJ0 = .stopped ∧ apIntervalTick t apJ0 = .stopped) :=
  autopost_run_validity_fixed 1000 [] apP0 apJ0 rfl

/-- `start` parameters with `interval_sec = 0`, outside [1, 86400]. -/
def apBadIntervalP : ApStartParams :=
  { name := "a", tool := "intercomswap_offer_post", interval_sec := some 0,
    ttl_sec := some 60, valid_until_unix := none, args := apArgs0 }

/-- Counterexample for C4: with `interval_sec = 0` (an integer outside
[1, 86400]) `AutopostManager.start` is rejected — `clampInt` throws
"must be >= 1" — rather than clamping the interval and starting the
job as the claim states. -/
theorem autopost_interval_out_of_range_rejected_cex :
    autopostStart 1000 [] apBadIntervalP = .error "must be >= 1" ∧
    ∀ j, autopostStart 1000 [] apBadIntervalP ≠ .ok j := by
  constructor
  · rfl
  · intro j hj
    rw [show autopostStart 1000 [] apBadIntervalP = .error "must be >= 1" from rfl] at hj
    exact Except.noConfusion hj

/-- C4 (amended): `start` *rejects* (throws) when the integer
`interval_sec` lies outside [1, 86400] — the despite-its-name validator
`clampInt` never clamps — and `ttl_sec` is required and must lie in
[10, 604800], otherwise `start` fails; any job that does start has both
values inside those ranges, unchanged from the call. -/
theorem autopost_start_range_checks (nowSec : Int) (names : List String)
    (p : ApStartParams) :
    (∀ iv, p.interval_sec = some iv → (iv < 1 ∨ 86400 < iv) →
        ∀ j, autopostStart nowSec names p ≠ .ok j) ∧
    (p.ttl_sec = none → ∀ j, autopostStart nowSec names p ≠ .ok j) ∧
    (∀ tv, p.ttl_sec = some tv → (tv < 10 ∨ 604800 < tv) →
        ∀ j, autopostStart nowSec names p ≠ .ok j) ∧
    (∀ j, autopostStart nowSec names p = .ok j →
        p.interval_sec = some j.intervalSec ∧ 1 ≤ j.intervalSec ∧ j.intervalSec ≤ 86400 ∧
        p.ttl_sec = some j.ttlSec ∧ 10 ≤ j.ttlSec ∧ j.ttlSec ≤ 604800) := by
  refine ⟨?_, ?_, ?_, ?_⟩
  · intro iv hiv hout j hj
    obtain ⟨-, -, hsome, h1, h2, -⟩ := autopostStart_ok nowSec names p j hj
    rw [hiv] at hsome
    simp only [Option.some.injEq] at hsome
    omega
  · intro hnone j hj
    obtain ⟨-, -, -, -, -, hsome, -⟩ := autopostStart_ok nowSec names p j hj
    rw [hnone] at hsome
    exact Option.noConfusion hsome
  · intro tv htv hout j hj
    obtain ⟨-, -, -, -, -, hsome, h1, h2, -⟩ := autopostStart_ok nowSec names p j hj
    rw [htv] at hsome
    simp only [Option.some.injEq] at hsome
    omega
  · intro j hj
    obtain ⟨-, -, hs1, h1, h2, hs2, h3, h4, -⟩ := autopostStart_ok nowSec names p j hj
    exact ⟨hs1, h1, h2, hs2, h3, h4⟩

/-- Witness for the amended C4 at concrete inputs. -/
theorem autopost_start_range_checks_witness :
    ((∀ iv, apBadIntervalP.interval_sec = some iv → (iv < 1 ∨ 86400 < iv) →
        ∀ j, autopostStart 1000 [] apBadIntervalP ≠ .ok j) ∧
     (apBadIntervalP.ttl_sec = none → ∀ j, autopostStart 1000 [] apBadIntervalP ≠ .ok j) ∧
     (∀ tv, apBadIntervalP.ttl_sec = some tv → (tv < 10 ∨ 604800 < tv) →
        ∀ j, autopostStart 1000 [] apBadIntervalP ≠ .ok j) ∧
     (∀ j, autopostStart 1000 [] apBadIntervalP = .ok j →
        apBadIntervalP.interval_sec = some j.intervalSec ∧ 1 ≤ j.intervalSec ∧
        j.intervalSec ≤ 86400 ∧
        apBadIntervalP.ttl_sec = some j.ttlSec ∧ 10 ≤ j.ttlSec ∧ j.ttlSec ≤ 604800)) :=
  autopost_start_range_checks 1000 [] apBadIntervalP

/-! ## Trade receipts store (`TradeReceiptsStore`)

The SQLite-backed store is modelled relationally: a trade row is a
record of `Option`-valued columns (NULL = `none`; `created_at` and
`updated_at` are NOT NULL), `upsertTrade` is a pure function from the
existing row, the patch and the clock to the new row, and the
payment-hash lookup runs over a list of rows.  JS patches distinguish a
key that is absent (`undefined`, "no change") from an explicit `null`
("clear"), hence the three-valued `Patch`. -/

/-- A patch field: absent key (`undefined`), explicit `null`, or a value. -/
inductive Patch (α : Type)
  | undef
  | null
  | val (a : α)
deriving DecidableEq, Repr

/-- Merge one patch field over the base value (upsertTrade's
"apply patch only for provided keys; undefined means no change"). -/
def patchApply {α : Type} (base : Option α) : Patch α → Option α
  | .undef => base
  | .null => none
  | .val a => some a

/-- `coerceHex32`: `null` passes through, otherwise trim + lowercase and
require exactly 64 lowercase-hex characters, else throw. -/
def coerceHex32M (v : Option String) (label : String) : Except String (Option String) :=
  match v with
  | none => .ok none
  | some s =>
    let h := jsLower (jsTrim s)
    if isLowerHexOfLen 64 h then .ok (some h) else .error (label ++ " must be 32-byte hex")

/-- One row of the `trades` table (`mapRow` image). -/
structure TradeRow where
  trade_id : String
  role : Option String
  rfq_channel : Option String
  swap_channel : Option String
  maker_peer : Option String
  taker_peer : Option String
  btc_sats : Option Int
  usdt_amount : Option String
  sol_mint : Option String
  sol_program_id : Option String
  sol_recipient : Option String
  sol_refund : Option String
  sol_escrow_pda : Option String
  sol_vault_ata : Option String
  sol_refund_after_unix : Option Int
  ln_invoice_bolt11 : Option String
  ln_payment_hash_hex : Option String
  ln_preimage_hex : Option String
  state : Option String
  created_at : Int
  updated_at : Int
  last_error : Option String
deriving DecidableEq, Repr

/-- An `upsertTrade` patch (one `Patch` per column the code coerces). -/
structure TradePatch where
  role : Patch String := .undef
  rfq_channel : Patch String := .undef
  swap_channel : Patch String := .undef
  maker_peer : Patch String := .undef
  taker_peer : Patch String := .undef
  btc_sats : Patch Int := .undef
  usdt_amount : Patch String := .undef
  sol_mint : Patch String := .undef
  sol_program_id : Patch String := .undef
  sol_recipient : Patch String := .undef
  sol_refund : Patch String := .undef
  sol_escrow_pda : Patch String := .undef
  sol_vault_ata : Patch String := .undef
  sol_refund_after_unix : Patch Int := .undef
  ln_invoice_bolt11 : Patch String := .undef
  ln_payment_hash_hex : Patch String := .undef
  ln_preimage_hex : Patch String := .undef
  state : Patch String := .undef
  created_at : Patch Int := .undef
  updated_at : Patch Int := .undef
  last_error : Patch String := .undef
deriving DecidableEq, Repr

/-- The empty patch `{}`. -/
def emptyTradePatch : TradePatch := {}

/-- `TradeReceiptsStore.upsertTrade` (part_003 lines 396-469) combined
with the SQL upsert's conflict clause (lines 251-288): load the existing
row (or a fresh base with `created_at = updated_at = now`), set
`updated_at := now`, overlay the provided patch keys, coerce the hex
columns, and write the full row — the conflict clause keeps
`created_at = trades.created_at` for an existing row.  NOT NULL columns
reject a null write. -/
def upsertTradeRow (now : Int) (existing : Option TradeRow) (tradeId : String)
    (p : TradePatch) : Except String TradeRow := do
  let id := jsTrim tradeId
  if id = "" then throw "tradeId is required"
  let hash ← coerceHex32M (patchApply (existing.bind (·.ln_payment_hash_hex)) p.ln_payment_hash_hex)
    "ln_payment_hash_hex"
  let pre ← coerceHex32M (patchApply (existing.bind (·.ln_preimage_hex)) p.ln_preimage_hex)
    "ln_preimage_hex"
  let createdBase : Int := match existing with
    | some r => r.created_at
    | none => now
  let createdMerged := patchApply (some createdBase) p.created_at
  let updatedMerged := patchApply (some now) p.updated_at
  let created ← match existing with
    | some r => pure r.created_at
    | none => match createdMerged with
      | some c => pure c
      | none => throw "NOT NULL constraint failed: trades.created_at"
  let updated ← match updatedMerged with
    | some u => pure u
    | none => throw "NOT NULL constraint failed: trades.updated_at"
  pure {
    trade_id := id,
    role := patchApply (existing.bind (·.role)) p.role,
    rfq_channel := patchApply (existing.bind (·.rfq_channel)) p.rfq_channel,
    swap_channel := patchApply (existing.bind (·.swap_channel)) p.swap_channel,
    maker_peer := patchApply (existing.bind (·.maker_peer)) p.maker_peer,
    taker_peer := patchApply (existing.bind (·.taker_peer)) p.taker_peer,
    btc_sats := patchApply (existing.bind (·.btc_sats)) p.btc_sats,
    usdt_amount := patchApply (existing.bind (·.usdt_amount)) p.usdt_amount,
    sol_mint := patchApply (existing.bind (·.sol_mint)) p.sol_mint,
    sol_program_id := patchApply (existing.bind (·.sol_program_id)) p.sol_program_id,
    sol_recipient := patchApply (existing.bind (·.sol_recipient)) p.sol_recipient,
    sol_refund := patchApply (existing.bind (·.sol_refund)) p.sol_refund,
    sol_escrow_pda := patchApply (existing.bind (·.sol_escrow_pda)) p.sol_escrow_pda,
    sol_vault_ata := patchApply (existing.bind (·.sol_vault_ata)) p.sol_vault_ata,
    sol_refund_after_unix :=
      patchApply (existing.bind (·.sol_refund_after_unix)) p.sol_refund_after_unix,
    ln_invoice_bolt11 := patchApply (existing.bind (·.ln_invoice_bolt11)) p.ln_invoice_bolt11,
    ln_payment_hash_hex := hash,
    ln_preimage_hex := pre,
    state := patchApply (existing.bind (·.state)) p.state,
    created_at := created,
    updated_at := updated,
    last_error := patchApply (existing.bind (·.last_error)) p.last_error }

/-- `TradeReceiptsStore.getTradeByPaymentHash` (part_003 lines 365-368):
coerce the argument through `coerceHex32`, then run
`SELECT * FROM trades WHERE ln_payment_hash_hex = ?`.  A NULL parameter
matches no row in SQL. -/
def getTradeByPaymentHash (rows : List TradeRow) (arg : Option String) :
    Except String (Option TradeRow) := do
  let hex ← coerceHex32M arg "paymentHashHex"
  match hex with
  | none => pure none
  | some h => pure (rows.find? (fun r => r.ln_payment_hash_hex == some h))

/-- Shared extraction lemma: every fact about the row `upsertTrade`
writes over an existing row. -/
theorem upsertTradeRow_existing_ok (now : Int) (r : TradeRow) (id : String) (p : TradePatch)
    (r' : TradeRow) (h : upsertTradeRow now (some r) id p = .ok r') :
    r'.created_at = r.created_at ∧
    r'.state = patchApply r.state p.state ∧
    r'.role = patchApply r.role p.role ∧
    r'.btc_sats = patchApply r.btc_sats p.btc_sats ∧
    r'.usdt_amount = patchApply r.usdt_amount p.usdt_amount ∧
    coerceHex32M (patchApply r.ln_preimage_hex p.ln_preimage_hex) "ln_preimage_hex" =
      .ok r'.ln_preimage_hex ∧
    patchApply (some now) p.updated_at = some r'.updated_at := by
  unfold upsertTradeRow at h
  simp only [bind, Except.bind, pure, Except.pure] at h
  repeat' split at h
  all_goals (try (exact Except.noConfusion h))
  all_goals simp only [Except.ok.injEq] at h
  all_goals subst h
  all_goals simp_all

/-- C8: over an existing, well-stored row (its hex columns re-coerce to
themselves, as every row the store writes does), `upsertTrade(id, {})`
rewrites exactly the same row with only `updated_at` refreshed —
`state`, `ln_preimage_hex` and every other column, `created_at`
included, are unchanged; and in general a patch key that is absent
(`undefined`) never clears a stored column while an explicit `null`
clears it (`created_at` stays pinned by the SQL conflict clause). -/
theorem upsertTrade_patch_merge (now : Int) (r : TradeRow) (id : String)
    (hid : jsTrim id = r.trade_id) (hne : r.trade_id ≠ "")
    (hHash : coerceHex32M r.ln_payment_hash_hex "ln_payment_hash_hex" = .ok r.ln_payment_hash_hex)
    (hPre : coerceHex32M r.ln_preimage_hex "ln_preimage_hex" = .ok r.ln_preimage_hex) :
    upsertTradeRow now (some r) id emptyTradePatch = .ok { r with updated_at := now } ∧
    (∀ p r', upsertTradeRow now (some r) id p = .ok r' →
      r'.created_at = r.created_at ∧
      (p.state = .undef → r'.state = r.state) ∧ (p.state = .null → r'.state = none) ∧
      (p.ln_preimage_hex = .undef → r'.ln_preimage_hex = r.ln_preimage_hex) ∧
      (p.ln_preimage_hex = .null → r'.ln_preimage_hex = none) ∧
      (p.role = .undef → r'.role = r.role) ∧ (p.role = .null → r'.role = none) ∧
      (p.btc_sats = .undef → r'.btc_sats = r.btc_sats) ∧
      (p.btc_sats = .null → r'.btc_sats = none) ∧
      (p.usdt_amount = .undef → r'.usdt_amount = r.usdt_amount) ∧
      (p.usdt_amount = .null → r'.usdt_amount = none)) := by
  constructor
  · unfold upsertTradeRow
    simp only [bind, Except.bind, pure, Except.pure, emptyTradePatch, patchApply,
      Option.bind, hid, hne, hHash, hPre, if_neg]
    simp
  · intro p r' h
    obtain ⟨hc, hs, hr, hb, hu, hpre, hupd⟩ := upsertTradeRow_existing_ok now r id p r' h
    refine ⟨hc, ?_, ?_, ?_, ?_, ?_, ?_, ?_, ?_, ?_, ?_⟩
    · intro hp; rw [hs, hp, patchApply]
    · intro hp; rw [hs, hp, patchApply]
    · intro hp
      rw [hp] at hpre
      simp only [patchApply] at hpre
      rw [hPre] at hpre
      exact (Except.ok.injEq _ _).mp hpre.symm
    · intro hp
      rw [hp] at hpre
      simp only [patchApply, coerceHex32M] at hpre
      exact ((Except.ok.injEq _ _).mp hpre).symm
    · intro hp; rw [hr, hp, patchApply]
    · intro hp; rw [hr, hp, patchApply]
    · intro hp; rw [hb, hp, patchApply]
    · intro hp; rw [hb, hp, patchApply]
    · intro hp; rw [hu, hp, patchApply]
    · intro hp; rw [hu, hp, patchApply]

/-- Concrete stored row used by the receipts witnesses. -/
def rcRow0 : TradeRow :=
  { trade_id := "t1", role := some "taker", rfq_channel := none, swap_channel := none,
    maker_peer := none, taker_peer := none, btc_sats := some 1000,
    usdt_amount := some "670000", sol_mint := none, sol_program_id := none,
    sol_recipient := none, sol_refund := none, sol_escrow_pda := none, sol_vault_ata := none,
    sol_refund_after_unix := none, ln_invoice_bolt11 := none,
    ln_payment_hash_hex := none,
    ln_preimage_hex := some (String.mk (List.replicate 64 'a')),
    state := some "ln_paid", created_at := 111, updated_at := 222, last_error := none }

/-- Witness for C8 at a concrete stored row. -/
theorem upsertTrade_patch_merge_witness :
    upsertTradeRow 333 (some rcRow0) "t1" emptyTradePatch =
      .ok { rcRow0 with updated_at := 333 } ∧
    (∀ p r', upsertTradeRow 333 (some rcRow0) "t1" p = .ok r' →
      r'.created_at = rcRow0.created_at ∧
      (p.state = .undef → r'.state = rcRow0.state) ∧ (p.state = .null → r'.state = none) ∧
      (p.ln_preimage_hex = .undef → r'.ln_preimage_hex = rcRow0.ln_preimage_hex) ∧
      (p.ln_preimage_hex = .null → r'.ln_preimage_hex = none) ∧
      (p.role = .undef → r'.role = rcRow0.role) ∧ (p.role = .null → r'.role = none) ∧
      (p.btc_sats = .undef → r'.btc_sats = rcRow0.btc_sats) ∧
      (p.btc_sats = .null → r'.btc_sats = none) ∧
      (p.usdt_amount = .undef → r'.usdt_amount = rcRow0.usdt_amount) ∧
      (p.usdt_amount = .null → r'.usdt_amount = none)) :=
  upsertTrade_patch_merge 333 rcRow0 "t1" rfl (by decide) rfl rfl

/-- Counterexample for C9: a `null` argument does not throw even though
it is not (after trimming and lowercasing) a string of 64 hexadecimal
characters — `coerceHex32` passes `null` straight through and the SQL
`=` comparison then matches no row. -/
theorem getTradeByPaymentHash_null_cex :
    getTradeByPaymentHash [rcRow0] none = .ok none := rfl

/-- C9 (amended): `getTradeByPaymentHash` throws exactly when its
argument is a string that, after trimming and lowercasing, is not 64
hexadecimal characters; a `null` argument instead returns no match
without throwing; a valid argument is looked up by its trimmed,
lowercased form — so two inputs with the same trimmed-lowercased form
give identical results (case-insensitivity) and a matched row stores
precisely that lowercase hex. -/
theorem getTradeByPaymentHash_some_eq (rows : List TradeRow) (s : String) :
    getTradeByPaymentHash rows (some s) =
      (if isLowerHexOfLen 64 (jsLower (jsTrim s)) = true
       then .ok (rows.find? (fun rr => rr.ln_payment_hash_hex == some (jsLower (jsTrim s))))
       else .error ("paymentHashHex" ++ " must be 32-byte hex")) := by
  unfold getTradeByPaymentHash coerceHex32M
  simp only [bind, Except.bind]
  by_cases hx : isLowerHexOfLen 64 (jsLower (jsTrim s)) = true
  · simp [hx, pure, Except.pure]
  · simp only [Bool.not_eq_true] at hx
    simp [hx, pure, Except.pure]

theorem getTradeByPaymentHash_spec (rows : List TradeRow) (arg : Option String) :
    ((∃ e, getTradeByPaymentHash rows arg = .error e) ↔
      (∃ s, arg = some s ∧ isLowerHexOfLen 64 (jsLower (jsTrim s)) = false)) ∧
    (arg = none → getTradeByPaymentHash rows arg = .ok none) ∧
    (∀ s, arg = some s → isLowerHexOfLen 64 (jsLower (jsTrim s)) = true →
      getTradeByPaymentHash rows arg =
        .ok (rows.find? (fun rr => rr.ln_payment_hash_hex == some (jsLower (jsTrim s))))) ∧
    (∀ s t, arg = some s → jsLower (jsTrim s) = jsLower (jsTrim t) →
      getTradeByPaymentHash rows arg = getTradeByPaymentHash rows (some t)) ∧
    (∀ s rr, arg = some s → getTradeByPaymentHash rows arg = .ok (some rr) →
      rr.ln_payment_hash_hex = some (jsLower (jsTrim s))) := by
  refine ⟨?_, ?_, ?_, ?_, ?_⟩
  · cases arg with
    | none =>
      simp [getTradeByPaymentHash, coerceHex32M, bind, Except.bind, pure, Except.pure]
    | some s =>
      rw [getTradeByPaymentHash_some_eq]
      by_cases hx : isLowerHexOfLen 64 (jsLower (jsTrim s)) = true
      · simp [hx]
      · simp only [Bool.not_eq_true] at hx
        simp [hx]
  · intro h; subst h
    simp [getTradeByPaymentHash, coerceHex32M, bind, Except.bind, pure, Except.pure]
  · intro s hs hx; subst hs
    rw [getTradeByPaymentHash_some_eq]
    simp [hx]
  · intro s t hs hst; subst hs
    rw [getTradeByPaymentHash_some_eq, getTradeByPaymentHash_some_eq, hst]
  · intro s rr hs h; subst hs
    rw [getTradeByPaymentHash_some_eq] at h
    split at h
    · simp only [Except.ok.injEq] at h
      have hfind := List.find?_some h
      simpa [beq_iff_eq] using hfind
    · exact Except.noConfusion h

/-- Witness for the amended C9 at concrete inputs: an uppercase,
whitespace-padded argument. -/
theorem getTradeByPaymentHash_spec_witness :
    ((∃ e, getTradeByPaymentHash [rcRow0] (some " ABC ") = .error e) ↔
      (∃ s, (some " ABC " : Option String) = some s ∧
        isLowerHexOfLen 64 (jsLower (jsTrim s)) = false)) ∧
    ((some " ABC " : Option String) = none → getTradeByPaymentHash [rcRow0] (some " ABC ") = .ok none) ∧
    (∀ s, (some " ABC " : Option String) = some s → isLowerHexOfLen 64 (jsLower (jsTrim s)) = true →
      getTradeByPaymentHash [rcRow0] (some " ABC ") =
        .ok ([rcRow0].find? (fun rr => rr.ln_payment_hash_hex == some (jsLower (jsTrim s))))) ∧
    (∀ s t, (some " ABC " : Option String) = some s → jsLower (jsTrim s) = jsLower (jsTrim t) →
      getTradeByPaymentHash [rcRow0] (some " ABC ") = getTradeByPaymentHash [rcRow0] (some t)) ∧
    (∀ s rr, (some " ABC " : Option String) = some s →
      getTradeByPaymentHash [rcRow0] (some " ABC ") = .ok (some rr) →
      rr.ln_payment_hash_hex = some (jsLower (jsTrim s))) :=
  getTradeByPaymentHash_spec [rcRow0] (some " ABC ")

/-! ## Quote-from-offer matching (`matchOfferForRfq`, tradeAuto.js lines 86-144)

The matcher scans the local `svc_announce` events for an offer line
whose price point equals the RFQ's, whose fee ceilings fit under the
RFQ's, and whose refund-window range overlaps the RFQ's; the quoted
window is 72 h clamped into the overlap. -/

/-- `/^[0-9]+$/`. -/
def isDigits (s : String) : Bool :=
  s.length != 0 && s.data.all (fun c => '0' ≤ c && c ≤ '9')

/-- `Math.max(0, Math.min(cap, toIntOrNull(v) ?? dflt))`. -/
def feeClamp (cap dflt : Int) (v : Option Int) : Int :=
  max 0 (min cap (v.getD dflt))

/-- `Math.max(3600, Math.min(7*24*3600, toIntOrNull(v) ?? dflt))`. -/
def winClamp (dflt : Int) (v : Option Int) : Int :=
  max 3600 (min 604800 (v.getD dflt))

/-- One entry of `svc_announce.body.offers[]`. -/
structure OfferLine where
  btc_sats : Option Int
  usdt_amount : Option String
  max_platform_fee_bps : Option Int
  max_trade_fee_bps : Option Int
  max_total_fee_bps : Option Int
  min_sol_refund_window_sec : Option Int
  max_sol_refund_window_sec : Option Int
deriving DecidableEq, Repr

/-- The RFQ body fields the matcher reads. -/
structure RfqBody where
  btc_sats : Option Int
  usdt_amount : Option String
  max_platform_fee_bps : Option Int
  max_trade_fee_bps : Option Int
  max_total_fee_bps : Option Int
  min_sol_refund_window_sec : Option Int
  max_sol_refund_window_sec : Option Int
deriving DecidableEq, Repr

/-- A `svc_announce` body: `offers` entries that are not objects are
`none` (the code skips them); `rfq_channels = none` models a value that
is not an array. -/
structure OfferBody where
  valid_until_unix : Option Int
  rfq_channels : Option (List String)
  offers : Option (List (Option OfferLine))
deriving DecidableEq, Repr

/-- An RFQ event as seen by the matcher (`body = none`: missing message
or non-object body). -/
structure RfqEvt where
  channel : Option String
  body : Option RfqBody
deriving DecidableEq, Repr

/-- A local offer event (`body = none`: non-object body, skipped). -/
structure OfferEvt where
  body : Option OfferBody
deriving DecidableEq, Repr

/-- First `some` produced over a list (the `for … return` loops). -/
def firstSome {α β : Type} (f : α → Option β) : List α → Option β
  | [] => none
  | a :: rest =>
    match f a with
    | some b => some b
    | none => firstSome f rest

theorem firstSome_eq_some {α β : Type} {f : α → Option β} {l : List α} {b : β}
    (h : firstSome f l = some b) : ∃ a ∈ l, f a = some b := by
  induction l with
  | nil => exact Option.noConfusion h
  | cons a rest ih =>
    unfold firstSome at h
    split at h
    · rename_i hfa
      simp only [Option.some.injEq] at h
      subst h
      exact ⟨a, List.mem_cons_self a rest, hfa⟩
    · obtain ⟨a', ha', hfa'⟩ := ih h
      exact ⟨a', List.mem_cons_of_mem a ha', hfa'⟩

/-- The inner offer-line loop body (tradeAuto.js lines 118-141):
price-point equality, fee-ceiling fit, window overlap, and the
72-hour-clamped refund window. -/
def matchLine (rfqBtc : Int) (rfqUsdt : String)
    (rfqMaxPlatform rfqMaxTrade rfqMaxTotal rfqMinWin rfqMaxWin : Int)
    (entry : Option OfferLine) : Option Int :=
  match entry with
  | none => none
  | some line =>
    match line.btc_sats with
    | none => none
    | some lineBtc =>
      let lineUsdt := jsTrim (optStr line.usdt_amount)
      if lineBtc < 1 then none
      else if ¬ isDigits lineUsdt then none
      else if lineBtc ≠ rfqBtc ∨ lineUsdt ≠ rfqUsdt then none
      else if feeClamp 500 500 line.max_platform_fee_bps > rfqMaxPlatform ∨
              feeClamp 1000 1000 line.max_trade_fee_bps > rfqMaxTrade ∨
              feeClamp 1500 1500 line.max_total_fee_bps > rfqMaxTotal then none
      else
        let overlapMin := max rfqMinWin (winClamp 3600 line.min_sol_refund_window_sec)
        let overlapMax := min rfqMaxWin (winClamp 604800 line.max_sol_refund_window_sec)
        if overlapMin > overlapMax then none
        else
          let w0 : Int := 72 * 3600
          let w1 := if w0 < overlapMin then overlapMin else w0
          some (if w1 > overlapMax then overlapMax else w1)

/-- The per-offer-event loop body (tradeAuto.js lines 104-142): skip
non-object bodies, expired offers and offers routed to other RFQ
channels, then scan the offer lines. -/
def matchOfferEvt (nowSec : Int) (rfqChannel : String) (rfqBtc : Int) (rfqUsdt : String)
    (rfqMaxPlatform rfqMaxTrade rfqMaxTotal rfqMinWin rfqMaxWin : Int)
    (evt : OfferEvt) : Option Int :=
  match evt.body with
  | none => none
  | some body =>
    let expired : Bool := match body.valid_until_unix with
      | some vu => decide (vu ≤ nowSec)
      | none => false
    if expired then none
    else
      let rfqChannels := ((body.rfq_channels.getD []).map jsTrim).filter (· ≠ "")
      if rfqChannels ≠ [] ∧ rfqChannel ≠ "" ∧ rfqChannel ∉ rfqChannels then none
      else
        firstSome
          (matchLine rfqBtc rfqUsdt rfqMaxPlatform rfqMaxTrade rfqMaxTotal rfqMinWin rfqMaxWin)
          (body.offers.getD [])

/-- `matchOfferForRfq` (tradeAuto.js lines 86-144). -/
def matchOfferForRfq (nowSec : Int) (rfqEvt : RfqEvt) (myOfferEvents : List OfferEvt) :
    Option Int :=
  match rfqEvt.body with
  | none => none
  | some rfqBody =>
    match rfqBody.btc_sats with
    | none => none
    | some rfqBtc =>
      let rfqUsdt := jsTrim (optStr rfqBody.usdt_amount)
      if rfqBtc < 1 ∨ ¬ isDigits rfqUsdt then none
      else
        let rfqMinWin := winClamp 3600 rfqBody.min_sol_refund_window_sec
        let rfqMaxWin := winClamp 604800 rfqBody.max_sol_refund_window_sec
        if rfqMinWin > rfqMaxWin then none
        else
          firstSome
            (matchOfferEvt nowSec (jsTrim (optStr rfqEvt.channel)) rfqBtc rfqUsdt
              (feeClamp 500 500 rfqBody.max_platform_fee_bps)
              (feeClamp 1000 1000 rfqBody.max_trade_fee_bps)
              (feeClamp 1500 1500 rfqBody.max_total_fee_bps)
              rfqMinWin rfqMaxWin)
            myOfferEvents

/-- Shared extraction: everything that must hold of the offer line when
the inner line loop returns a window. -/
theorem matchLine_some {rfqBtc : Int} {rfqUsdt : String}
    {rMP rMT rMTot rMinW rMaxW : Int} {entry : Option OfferLine} {w : Int}
    (h : matchLine rfqBtc rfqUsdt rMP rMT rMTot rMinW rMaxW entry = some w) :
    ∃ line, entry = some line ∧
      line.btc_sats = some rfqBtc ∧ 1 ≤ rfqBtc ∧
      jsTrim (optStr line.usdt_amount) = rfqUsdt ∧ isDigits rfqUsdt = true ∧
      feeClamp 500 500 line.max_platform_fee_bps ≤ rMP ∧
      feeClamp 1000 1000 line.max_trade_fee_bps ≤ rMT ∧
      feeClamp 1500 1500 line.max_total_fee_bps ≤ rMTot ∧
      max rMinW (winClamp 3600 line.min_sol_refund_window_sec) ≤
        min rMaxW (winClamp 604800 line.max_sol_refund_window_sec) ∧
      w = max (max rMinW (winClamp 3600 line.min_sol_refund_window_sec))
            (min (min rMaxW (winClamp 604800 line.max_sol_refund_window_sec)) (72 * 3600)) := by
  cases entry with
  | none => exact Option.noConfusion h
  | some line =>
    cases hbtc : line.btc_sats with
    | none =>
      simp only [matchLine, hbtc] at h
      exact Option.noConfusion h
    | some lineBtc =>
      simp only [matchLine, hbtc] at h
      split at h
      · exact Option.noConfusion h
      split at h
      · exact Option.noConfusion h
      split at h
      · exact Option.noConfusion h
      split at h
      · exact Option.noConfusion h
      split at h
      · exact Option.noConfusion h
      rename_i hlt hdig hpair hfees hoverlap
      simp only [not_or, not_lt, ne_eq, not_not, Decidable.not_not, not_and]
        at hlt hdig hpair hfees hoverlap
      obtain ⟨hbe, hue⟩ := hpair
      subst hbe
      simp only [Option.some.injEq] at h
      subst h
      refine ⟨line, rfl, hbtc, by omega, hue, by rwa [hue] at hdig, ?_, ?_, ?_, by omega, ?_⟩
      · omega
      · omega
      · omega
      · split_ifs <;> omega

/-- Shared extraction for the per-offer loop: a produced window comes
from some offer line of the event's body. -/
theorem matchOfferEvt_some {nowSec : Int} {ch : String} {rfqBtc : Int} {rfqUsdt : String}
    {rMP rMT rMTot rMinW rMaxW : Int} {evt : OfferEvt} {w : Int}
    (h : matchOfferEvt nowSec ch rfqBtc rfqUsdt rMP rMT rMTot rMinW rMaxW evt = some w) :
    ∃ body, evt.body = some body ∧ ∃ entry ∈ body.offers.getD [],
      matchLine rfqBtc rfqUsdt rMP rMT rMTot rMinW rMaxW entry = some w := by
  cases hb : evt.body with
  | none =>
    simp only [matchOfferEvt, hb] at h
    exact Option.noConfusion h
  | some body =>
    simp only [matchOfferEvt, hb] at h
    split at h
    · exact Option.noConfusion h
    split at h
    · exact Option.noConfusion h
    obtain ⟨entry, hmem, hline⟩ := firstSome_eq_some h
    exact ⟨body, rfl, entry, hmem, hline⟩

/-- C5: when `matchOfferForRfq` returns a window, the matched offer line
has the RFQ's exact `(btc_sats, usdt_amount)` pair, each of its three
(normalised) fee ceilings is ≤ the RFQ's, the windows overlap
(`overlap_min ≤ overlap_max` with `overlap_min = max(rfq.min, offer.min)`
and `overlap_max = min(rfq.max, offer.max)` after the [3600, 604800]
normalisation), and the returned `sol_refund_window_sec` is exactly
72 h = 259200 clamped into that overlap — in particular it always lies
inside the overlap, and an empty overlap never matches. -/
theorem matchOfferForRfq_spec (nowSec : Int) (rfqEvt : RfqEvt)
    (offerEvents : List OfferEvt) (w : Int)
    (h : matchOfferForRfq nowSec rfqEvt offerEvents = some w) :
    ∃ rfqBody, rfqEvt.body = some rfqBody ∧
    ∃ rfqBtc, rfqBody.btc_sats = some rfqBtc ∧ 1 ≤ rfqBtc ∧
    ∃ evt ∈ offerEvents, ∃ body, evt.body = some body ∧
    ∃ line, (some line) ∈ body.offers.getD [] ∧
      line.btc_sats = some rfqBtc ∧
      jsTrim (optStr line.usdt_amount) = jsTrim (optStr rfqBody.usdt_amount) ∧
      feeClamp 500 500 line.max_platform_fee_bps ≤
        feeClamp 500 500 rfqBody.max_platform_fee_bps ∧
      feeClamp 1000 1000 line.max_trade_fee_bps ≤
        feeClamp 1000 1000 rfqBody.max_trade_fee_bps ∧
      feeClamp 1500 1500 line.max_total_fee_bps ≤
        feeClamp 1500 1500 rfqBody.max_total_fee_bps ∧
      max (winClamp 3600 rfqBody.min_sol_refund_window_sec)
          (winClamp 3600 line.min_sol_refund_window_sec) ≤
        min (winClamp 604800 rfqBody.max_sol_refund_window_sec)
          (winClamp 604800 line.max_sol_refund_window_sec) ∧
      w = max (max (winClamp 3600 rfqBody.min_sol_refund_window_sec)
                 (winClamp 3600 line.min_sol_refund_window_sec))
            (min (min (winClamp 604800 rfqBody.max_sol_refund_window_sec)
                   (winClamp 604800 line.max_sol_refund_window_sec)) (72 * 3600)) ∧
      max (winClamp 3600 rfqBody.min_sol_refund_window_sec)
          (winClamp 3600 line.min_sol_refund_window_sec) ≤ w ∧
      w ≤ min (winClamp 604800 rfqBody.max_sol_refund_window_sec)
            (winClamp 604800 line.max_sol_refund_window_sec) := by
  cases hb : rfqEvt.body with
  | none =>
    simp only [matchOfferForRfq, hb] at h
    exact Option.noConfusion h
  | some rfqBody =>
    cases hbtc : rfqBody.btc_sats with
    | none =>
      simp only [matchOfferForRfq, hb, hbtc] at h
      exact Option.noConfusion h
    | some rfqBtc =>
      simp only [matchOfferForRfq, hb, hbtc] at h
      split at h
      · exact Option.noConfusion h
      split at h
      · exact Option.noConfusion h
      rename_i hvalid hwins
      obtain ⟨evt, hmem, hoevt⟩ := firstSome_eq_some h
      obtain ⟨body, hbody, entry, hentry, hline⟩ := matchOfferEvt_some hoevt
      obtain ⟨line, hentry_eq, hlbtc, hge1, hueq, hdig, hf1, hf2, hf3, hov, hw⟩ :=
        matchLine_some hline
      subst hentry_eq
      refine ⟨rfqBody, rfl, rfqBtc, hbtc, hge1, evt, hmem, body, hbody, line, hentry,
        hlbtc, hueq, hf1, hf2, hf3, hov, hw, by omega, by omega⟩

/-- The S1 scenario RFQ body: 1000 sats for 0.67 USDT, default ceilings. -/
def rfqBody0 : RfqBody :=
  { btc_sats := some 1000, usdt_amount := some "670000",
    max_platform_fee_bps := some 500, max_trade_fee_bps := some 1000,
    max_total_fee_bps := some 1500, min_sol_refund_window_sec := some 3600,
    max_sol_refund_window_sec := some 604800 }

/-- The S1 scenario RFQ event. -/
def rfqEvt0 : RfqEvt :=
  { channel := some "swaps", body := some rfqBody0 }

/-- A local offer line matching `rfqBody0` exactly. -/
def offerLine0 : OfferLine :=
  { btc_sats := some 1000, usdt_amount := some "670000",
    max_platform_fee_bps := some 500, max_trade_fee_bps := some 1000,
    max_total_fee_bps := some 1500, min_sol_refund_window_sec := some 3600,
    max_sol_refund_window_sec := some 604800 }

/-- A local offer event whose single line matches `rfqEvt0`. -/
def offerEvt0 : OfferEvt :=
  { body := some { valid_until_unix := some 99999, rfq_channels := some ["swaps"], offers := some [some offerLine0] } }

/-- Witness for C5: the S1 match yields the 72-hour window 259200,
which lies in the overlap [3600, 604800]. -/
theorem matchOfferForRfq_spec_witness :
    (matchOfferForRfq 1000 rfqEvt0 [offerEvt0] = some 259200) ∧
    (∃ rfqBody, rfqEvt0.body = some rfqBody ∧
     ∃ rfqBtc, rfqBody.btc_sats = some rfqBtc ∧ 1 ≤ rfqBtc ∧
     ∃ evt ∈ [offerEvt0], ∃ body, evt.body = some body ∧
     ∃ line, (some line) ∈ body.offers.getD [] ∧
       line.btc_sats = some rfqBtc ∧
       jsTrim (optStr line.usdt_amount) = jsTrim (optStr rfqBody.usdt_amount) ∧
       feeClamp 500 500 line.max_platform_fee_bps ≤
         feeClamp 500 500 rfqBody.max_platform_fee_bps ∧
       feeClamp 1000 1000 line.max_trade_fee_bps ≤
         feeClamp 1000 1000 rfqBody.max_trade_fee_bps ∧
       feeClamp 1500 1500 line.max_total_fee_bps ≤
         feeClamp 1500 1500 rfqBody.max_total_fee_bps ∧
       max (winClamp 3600 rfqBody.min_sol_refund_window_sec)
           (winClamp 3600 line.min_sol_refund_window_sec) ≤
         min (winClamp 604800 rfqBody.max_sol_refund_window_sec)
           (winClamp 604800 line.max_sol_refund_window_sec) ∧
       (259200 : Int) = max (max (winClamp 3600 rfqBody.min_sol_refund_window_sec)
                  (winClamp 3600 line.min_sol_refund_window_sec))
             (min (min (winClamp 604800 rfqBody.max_sol_refund_window_sec)
                    (winClamp 604800 line.max_sol_refund_window_sec)) (72 * 3600)) ∧
       max (winClamp 3600 rfqBody.min_sol_refund_window_sec)
           (winClamp 3600 line.min_sol_refund_window_sec) ≤ (259200 : Int) ∧
       (259200 : Int) ≤ min (winClamp 604800 rfqBody.max_sol_refund_window_sec)
             (winClamp 604800 line.max_sol_refund_window_sec)) :=
  ⟨by rfl, matchOfferForRfq_spec 1000 rfqEvt0 [offerEvt0] 259200 (by rfl)⟩

/-! ## Settlement driver (`TradeAutoManager`, tradeAuto.js)

The driver's per-tick dispatch (lines 659-1180) is embedded as explicit
state passing.  JS `Set`/`Map` are insertion-ordered association lists;
`runTool` results are oracles carried on each candidate; `Date.now()` is
the tick's `nowMs` (the driver reads the clock repeatedly inside one
tick; a single tick timestamp is used, which the proved properties do
not depend on). -/

/-- In-memory caches and counters of `TradeAutoManager` (the fields the
dispatch loops touch). -/
structure DriverState where
  autoQuotedRfqSig : List String
  autoAcceptedQuoteSig : List String
  autoAcceptedTradeLock : List (String × Int)
  autoInvitedAcceptSig : List String
  autoJoinedInviteSig : List String
  stageDone : List (String × Int)
  stageInFlight : List String
  stageRetryAfter : List (String × Int)
  tradePreimage : List (String × String)
  actionsLeft : Int
  actions : Int
deriving DecidableEq, Repr

/-- Driver options (the `this.opts` / bound fields the loops read). -/
structure DriverOpts where
  dedupeMax : Int
  stageMax : Int
  preimageMax : Int
  lockMaxAgeMs : Int
  doneMaxAgeMs : Int
  maxTrades : Int
  eventMaxAgeMs : Int
  usdtMint : Option String
  defaultWindow : Int
  enableQuoteFromOffers : Bool
  enableAcceptQuotes : Bool
  enableInviteFromAccepts : Bool
  enableJoinInvites : Bool
  enableSettlement : Bool
deriving DecidableEq, Repr

/-- JS `Set.add` (no-op when present, else append). -/
def setAdd (s : List String) (x : String) : List String :=
  if x ∈ s then s else s ++ [x]

/-- JS `Map.set` (update in place when present, else append). -/
def mapSet {α : Type} (m : List (String × α)) (k : String) (v : α) : List (String × α) :=
  if (m.lookup k).isSome then m.map (fun kv => if kv.1 = k then (k, v) else kv)
  else m ++ [(k, v)]

/-- JS `Map.delete` / `Set.delete`. -/
def mapDelete {α : Type} (m : List (String × α)) (k : String) : List (String × α) :=
  m.filter (fun kv => kv.1 ≠ k)

/-- `pruneSetByLimit` / `pruneMapByLimit`: drop oldest entries while the
size exceeds `max(1, limit)`. -/
def pruneListByLimit {α : Type} (l : List α) (limit : Int) : List α :=
  l.drop (l.length - (max 1 limit).toNat)

/-- `_pruneCaches()` without terminal-trade pruning (the form invoked
inside the pipelines): age-prune the lock, done and retry maps, then
apply the size limits.  (`max_trades` is read from the live opts.) -/
def pruneCaches (opts : DriverOpts) (nowMs : Int) (st : DriverState) : DriverState :=
  let lockAged := st.autoAcceptedTradeLock.filter
    (fun kv => kv.1 ≠ "" && decide (nowMs - kv.2 ≤ opts.lockMaxAgeMs))
  let doneAged := st.stageDone.filter (fun kv => decide (nowMs - kv.2 ≤ opts.doneMaxAgeMs))
  let retryAged := st.stageRetryAfter.filter (fun kv => decide (nowMs - kv.2 ≤ opts.doneMaxAgeMs))
  { st with
    autoQuotedRfqSig := pruneListByLimit st.autoQuotedRfqSig opts.dedupeMax,
    autoAcceptedQuoteSig := pruneListByLimit st.autoAcceptedQuoteSig opts.dedupeMax,
    autoAcceptedTradeLock := pruneListByLimit lockAged (max opts.maxTrades opts.preimageMax),
    autoInvitedAcceptSig := pruneListByLimit st.autoInvitedAcceptSig opts.dedupeMax,
    autoJoinedInviteSig := pruneListByLimit st.autoJoinedInviteSig opts.dedupeMax,
    stageDone := pruneListByLimit doneAged opts.stageMax,
    stageInFlight := pruneListByLimit st.stageInFlight opts.stageMax,
    stageRetryAfter := pruneListByLimit retryAged opts.stageMax,
    tradePreimage := pruneListByLimit st.tradePreimage opts.preimageMax }

/-- `envelopeSig` (tradeAuto.js lines 32-35): trim + lowercase
`message.sig` and require exactly 128 lowercase-hex characters, else
the empty string. -/
def envelopeSig (sig : Option String) : String :=
  let s := jsLower (jsTrim (optStr sig))
  if isLowerHexOfLen 128 s then s else ""

/-- `eventTs`: a positive numeric `ts` or the current time. -/
def eventTs (ts : Option Int) (nowMs : Int) : Int :=
  match ts with
  | some t => if 0 < t then t else nowMs
  | none => nowMs

/-- `isEventStale`. -/
def isEventStale (nowMs : Int) (ts : Option Int) (maxAgeMs : Int) : Bool :=
  decide (nowMs - eventTs ts nowMs > maxAgeMs)

/-- `_eventRetryKey`. -/
def eventRetryKey (flow sig : String) : String :=
  "evt:" ++ flow ++ ":" ++ sig

/-- `_canRunEvent`: non-empty sig and past the per-event cooldown. -/
def canRunEvent (st : DriverState) (nowMs : Int) (flow sig : String) : Bool :=
  sig != "" && decide (nowMs ≥ ((st.stageRetryAfter.lookup (eventRetryKey flow sig)).getD 0))

/-- `_markEventRetry` (default cooldown 5000 ms, floor 1000 ms). -/
def markEventRetry (st : DriverState) (nowMs : Int) (flow sig : String) (cooldownMs : Int) :
    DriverState :=
  { st with stageRetryAfter :=
      mapSet st.stageRetryAfter (eventRetryKey flow sig) (nowMs + max 1000 cooldownMs) }

/-- `_clearEventRetry`. -/
def clearEventRetry (st : DriverState) (flow sig : String) : DriverState :=
  { st with stageRetryAfter := mapDelete st.stageRetryAfter (eventRetryKey flow sig) }

/-- `_canRunStage`: not done, not in flight, past the retry cooldown. -/
def canRunStage (st : DriverState) (nowMs : Int) (stageKey : String) : Bool :=
  stageKey != "" && !(st.stageDone.lookup stageKey).isSome &&
    !(st.stageInFlight.contains stageKey) &&
    decide (nowMs ≥ ((st.stageRetryAfter.lookup stageKey).getD 0))

/-- `_markStageSuccess`. -/
def markStageSuccess (st : DriverState) (nowMs : Int) (stageKey : String) : DriverState :=
  { st with
    stageInFlight := st.stageInFlight.filter (· ≠ stageKey),
    stageRetryAfter := mapDelete st.stageRetryAfter stageKey,
    stageDone := mapSet st.stageDone stageKey nowMs }

/-- `_markStageRetry`. -/
def markStageRetry (st : DriverState) (nowMs : Int) (stageKey : String) (cooldownMs : Int) :
    DriverState :=
  { st with
    stageInFlight := st.stageInFlight.filter (· ≠ stageKey),
    stageRetryAfter := mapSet st.stageRetryAfter stageKey (nowMs + max 1000 cooldownMs) }

/-- The shared loop shape of all five pipelines: stop as soon as the
shared `actionsLeft` budget is exhausted, otherwise process the next
candidate. -/
def runQueue {C : Type} (step : DriverState → C → DriverState) :
    DriverState → List C → DriverState
  | st, [] => st
  | st, c :: rest => if st.actionsLeft ≤ 0 then st else runQueue step (step st c) rest

/-- A candidate of the quote-from-offer pipeline: one non-stale
`swap.rfq` event of the reversed queue, with the outcome its
`intercomswap_quote_post_from_rfq` call would have. -/
structure RfqCand where
  evt : RfqEvt
  sig : Option String
  localEvt : Bool
  toolOk : Bool
deriving DecidableEq, Repr

/-- Quote-from-offer pipeline loop body (tradeAuto.js lines 717-754). -/
def quoteFromOfferStep (opts : DriverOpts) (nowMs nowSec : Int) (myOfferEvents : List OfferEvt)
    (st : DriverState) (c : RfqCand) : DriverState :=
  if c.localEvt then st
  else
    let sig := envelopeSig c.sig
    if sig = "" ∨ sig ∈ st.autoQuotedRfqSig then st
    else if ¬ canRunEvent st nowMs "quote_from_offer" sig then st
    else
      match matchOfferForRfq nowSec c.evt myOfferEvents with
      | none => st
      | some _w =>
        let ch := jsTrim (optStr c.evt.channel)
        if ch = "" then st
        else if c.toolOk then
          let st1 := { st with autoQuotedRfqSig := setAdd st.autoQuotedRfqSig sig }
          let st2 := clearEventRetry st1 "quote_from_offer" sig
          let st3 := pruneCaches opts nowMs st2
          { st3 with actionsLeft := st3.actionsLeft - 1, actions := st3.actions + 1 }
        else markEventRetry st nowMs "quote_from_offer" sig 5000

/-- Outcome of one accept-quote candidate. -/
inductive AcceptOutcome
  | skipped
  | accepted
  | failed
deriving DecidableEq, Repr

/-- A candidate of the accept-quote pipeline: one non-local
`swap.quote` event of the reversed queue, with the outcome its
`intercomswap_quote_accept` call would have. -/
structure QuoteCand where
  tradeId : Option String
  sig : Option String
  ts : Option Int
  toolOk : Bool
deriving DecidableEq, Repr

/-- Accept-quote pipeline loop body (tradeAuto.js lines 757-799). -/
def acceptQuoteStep (opts : DriverOpts) (nowMs : Int)
    (myRfqTradeIds terminalTradeIds : List String)
    (st : DriverState) (c : QuoteCand) : DriverState × AcceptOutcome :=
  if isEventStale nowMs c.ts opts.eventMaxAgeMs then (st, .skipped)
  else
    let sig := envelopeSig c.sig
    if sig = "" ∨ sig ∈ st.autoAcceptedQuoteSig then (st, .skipped)
    else if ¬ canRunEvent st nowMs "accept_quote" sig then (st, .skipped)
    else
      let tradeId := jsTrim (optStr c.tradeId)
      if tradeId = "" ∨ tradeId ∉ myRfqTradeIds then (st, .skipped)
      else if tradeId ∈ terminalTradeIds then (st, .skipped)
      else if (st.autoAcceptedTradeLock.lookup tradeId).isSome then (st, .skipped)
      else if c.toolOk then
        let st1 := { st with autoAcceptedQuoteSig := setAdd st.autoAcceptedQuoteSig sig }
        let st2 := clearEventRetry st1 "accept_quote" sig
        let st3 := { st2 with autoAcceptedTradeLock := mapSet st2.autoAcceptedTradeLock tradeId nowMs }
        let st4 := pruneCaches opts nowMs st3
        ({ st4 with actionsLeft := st4.actionsLeft - 1, actions := st4.actions + 1 }, .accepted)
      else (markEventRetry st nowMs "accept_quote" sig 5000, .failed)

/-- A candidate of the invite-from-accept pipeline: a non-local
`swap.quote_accept` event, with its tool and follow-up subscribe
outcomes. -/
structure AcceptCand where
  sig : Option String
  ts : Option Int
  quoteId : Option String
  toolOk : Bool
  outSwapChannel : Option String
  subOk : Bool
deriving DecidableEq, Repr

/-- Invite-from-accept pipeline loop body (tradeAuto.js lines 802-853).
On tool success the signature is recorded and the per-event retry is
cleared *before* the follow-up `swap:` subscribe; a failing subscribe
re-marks the event retry and skips the budget bookkeeping, exactly as
the thrown error does in the source's `catch`. -/
def inviteFromAcceptStep (opts : DriverOpts) (nowMs : Int) (myQuoteIds : List String)
    (st : DriverState) (c : AcceptCand) : DriverState :=
  if isEventStale nowMs c.ts opts.eventMaxAgeMs then st
  else
    let sig := envelopeSig c.sig
    if sig = "" ∨ sig ∈ st.autoInvitedAcceptSig then st
    else if ¬ canRunEvent st nowMs "invite_from_accept" sig then st
    else
      let quoteId := jsLower (jsTrim (optStr c.quoteId))
      if quoteId ∉ myQuoteIds then st
      else if c.toolOk then
        let st1 := { st with autoInvitedAcceptSig := setAdd st.autoInvitedAcceptSig sig }
        let st2 := clearEventRetry st1 "invite_from_accept" sig
        let st3 := pruneCaches opts nowMs st2
        let swapCh := jsTrim (optStr c.outSwapChannel)
        if swapCh ≠ "" ∧ ¬ c.subOk then
          markEventRetry st3 nowMs "invite_from_accept" sig 5000
        else { st3 with actionsLeft := st3.actionsLeft - 1, actions := st3.actions + 1 }
      else markEventRetry st nowMs "invite_from_accept" sig 5000

/-- A candidate of the join-invite pipeline: a non-local
`swap.swap_invite` event. -/
structure InviteCand where
  tradeId : Option String
  sig : Option String
  ts : Option Int
  inviteePubKey : Option String
  bodySwapChannel : Option String
  toolOk : Bool
  outSwapChannel : Option String
  subOk : Bool
deriving DecidableEq, Repr

/-- Join-invite pipeline loop body (tradeAuto.js lines 855-899). -/
def joinInviteStep (opts : DriverOpts) (nowMs : Int) (localPeer : String)
    (terminalTradeIds : List String) (st : DriverState) (c : InviteCand) : DriverState :=
  if isEventStale nowMs c.ts opts.eventMaxAgeMs then st
  else
    let sig := envelopeSig c.sig
    if sig = "" ∨ sig ∈ st.autoJoinedInviteSig then st
    else if ¬ canRunEvent st nowMs "join_invite" sig then st
    else
      let tradeId := jsTrim (optStr c.tradeId)
      if tradeId ≠ "" ∧ tradeId ∈ terminalTradeIds then st
      else
        let invitee := jsLower (jsTrim (optStr c.inviteePubKey))
        if invitee ≠ "" ∧ localPeer ≠ "" ∧ invitee ≠ localPeer then st
        else if c.toolOk then
          let st1 := { st with autoJoinedInviteSig := setAdd st.autoJoinedInviteSig sig }
          let st2 := clearEventRetry st1 "join_invite" sig
          let st3 := pruneCaches opts nowMs st2
          let swapCh := jsTrim (jsOr (optStr c.outSwapChannel) (optStr c.bodySwapChannel))
          if swapCh ≠ "" ∧ ¬ c.subOk then
            markEventRetry st3 nowMs "join_invite" sig 5000
          else { st3 with actionsLeft := st3.actionsLeft - 1, actions := st3.actions + 1 }
        else markEventRetry st nowMs "join_invite" sig 5000

/-- `terms.body` fields the settlement stages read. -/
structure TermsBody where
  btc_sats : Option Int
  usdt_amount : Option String
  sol_mint : Option String
  sol_recipient : Option String
  sol_refund : Option String
  sol_refund_after_unix : Option Int
  ln_payer_peer : Option String
  trade_fee_collector : Option String
deriving DecidableEq, Repr

/-- A `terms` envelope (`body = none` models a non-object body, which
the code replaces with `{}`). -/
structure TermsEnv where
  signer : Option String
  body : Option TermsBody
deriving DecidableEq, Repr

/-- An envelope of which only signer / presence is read (`accept`,
`quote_accept`, `escrow`, `ln_paid`). -/
structure SigEnv where
  signer : Option String
deriving DecidableEq, Repr

/-- `quote.body` fields read by `terms_post`. -/
structure QuoteBody where
  btc_sats : Option Int
  usdt_amount : Option String
  sol_mint : Option String
  trade_fee_collector : Option String
  sol_refund_window_sec : Option Int
  valid_until_unix : Option Int
deriving DecidableEq, Repr

/-- A `quote` envelope in a negotiation record. -/
structure QuoteEnvS where
  signer : Option String
  body : Option QuoteBody
deriving DecidableEq, Repr

/-- `rfq.body` fields read by `terms_post`. -/
structure RfqBodyS where
  btc_sats : Option Int
  usdt_amount : Option String
  sol_recipient : Option String
  sol_mint : Option String
deriving DecidableEq, Repr

/-- An `rfq` envelope in a negotiation record. -/
structure RfqEnvS where
  signer : Option String
  body : Option RfqBodyS
deriving DecidableEq, Repr

/-- An `ln_invoice` envelope. -/
structure InvoiceEnv where
  body_payment_hash_hex : Option String
deriving DecidableEq, Repr

/-- A per-trade swap-channel context from `_buildContexts`. -/
structure TradeCtx where
  trade_id : Option String
  channel : Option String
  terms : Option TermsEnv
  accept : Option SigEnv
  invoice : Option InvoiceEnv
  escrow : Option SigEnv
  ln_paid : Option SigEnv
  claimed : Bool
  refunded : Bool
  canceled : Bool
deriving DecidableEq, Repr

/-- A per-trade negotiation record. -/
structure NegCtx where
  rfq : Option RfqEnvS
  quote : Option QuoteEnvS
  quote_accept : Option SigEnv
  swap_channel : Option String
deriving DecidableEq, Repr

/-- `String(termsEnv?.signer || quoteEnv?.signer || '').trim().toLowerCase()`
(tradeAuto.js line 920): JS `||` falls through on the *raw* signer
strings, the winner is then trimmed and lowercased. -/
def makerSignerOf (termsSigner quoteSigner : Option String) : String :=
  jsLower (jsTrim (jsOr (optStr termsSigner) (optStr quoteSigner)))

/-- `String(acceptEnv?.signer || quoteAcceptEnv?.signer || rfqEnv?.signer
|| '').trim().toLowerCase()` (tradeAuto.js line 921). -/
def takerSignerOf (acceptSigner quoteAcceptSigner rfqSigner : Option String) : String :=
  jsLower (jsTrim (jsOr (optStr acceptSigner)
    (jsOr (optStr quoteAcceptSigner) (optStr rfqSigner))))

/-- `iAmMaker` (tradeAuto.js line 922). -/
def iAmMakerOf (localPeer makerSigner : String) : Bool :=
  localPeer != "" && makerSigner != "" && makerSigner == localPeer

/-- `iAmTaker` (tradeAuto.js line 923). -/
def iAmTakerOf (localPeer takerSigner tradeId : String) (myRfqTradeIds : List String) : Bool :=
  (localPeer != "" && takerSigner != "" && takerSigner == localPeer) ||
    myRfqTradeIds.contains tradeId

/-- `termsLnPayerPeer` (tradeAuto.js line 930). -/
def termsLnPayerOf (terms : Option TermsEnv) : String :=
  jsLower (jsTrim (optStr ((terms.bind (·.body)).bind (·.ln_payer_peer))))

/-- `termsSolRecipient` (tradeAuto.js line 931). -/
def termsSolRecipientOf (terms : Option TermsEnv) : String :=
  jsTrim (optStr ((terms.bind (·.body)).bind (·.sol_recipient)))

/-- `termsBoundToLocalIdentity` (tradeAuto.js lines 933-938): vacuously
true without terms; else requires a non-empty local peer and a 64-hex
`ln_payer_peer` equal to it. -/
def termsBoundToLocalIdentity (localPeer : String) (terms : Option TermsEnv) : Bool :=
  match terms with
  | none => true
  | some _ =>
    if localPeer = "" then false
    else if ¬ (isLowerHexOfLen 64 (termsLnPayerOf terms) = true) then false
    else termsLnPayerOf terms == localPeer

/-- `termsBoundToLocalSolRecipient` (tradeAuto.js lines 939-943). -/
def termsBoundToLocalSolRecipient (localSolSigner : String) (terms : Option TermsEnv) : Bool :=
  match terms with
  | none => true
  | some _ =>
    if localSolSigner = "" then false
    else termsSolRecipientOf terms != "" && termsSolRecipientOf terms == localSolSigner

/-- What a stage's `try` block does once it runs: raise before reaching
the stage's tool (a validation failure), or invoke the tool with the
oracle outcome; `post` is the bookkeeping the source performs after a
successful call, before `_markStageSuccess`. -/
inductive StageBody
  | throwPre
  | invoke (ok : Bool) (post : DriverState → DriverState)

/-- Per-trade settlement outcome: no stage fired, a stage raised before
its tool call and was marked for retry, or a stage's tool was invoked
(successfully or not). -/
inductive SettleOutcome
  | skipped
  | retriedPre (stage : String)
  | invoked (stage : String) (ok : Bool)
deriving DecidableEq, Repr

/-- The stage harness shared by all six settlement stages: the
`_canRunStage` gate and `_markStageInFlight`, then the `try` body
(`pre` is state read/caching work the body performs before it resolves,
as in `sol_claim`'s receipts fallback), with `_markStageSuccess` /
`_markStageRetry` and the budget bookkeeping of the source. -/
def runStage (nowMs : Int) (st : DriverState) (stage stageKey : String)
    (cooldownMs : Int) (pre : DriverState → DriverState) (body : StageBody) :
    DriverState × SettleOutcome :=
  if ¬ canRunStage st nowMs stageKey then (st, .skipped)
  else
    match body with
    | .throwPre =>
      (markStageRetry (pre { st with stageInFlight := setAdd st.stageInFlight stageKey })
        nowMs stageKey cooldownMs, .retriedPre stage)
    | .invoke ok post =>
      if ok then
        let st2 := markStageSuccess
          (post (pre { st with stageInFlight := setAdd st.stageInFlight stageKey }))
          nowMs stageKey
        ({ st2 with actionsLeft := st2.actionsLeft - 1, actions := st2.actions + 1 },
          .invoked stage true)
      else
        (markStageRetry (pre { st with stageInFlight := setAdd st.stageInFlight stageKey })
          nowMs stageKey cooldownMs, .invoked stage false)

/-- Per-tick identities and options the settlement loop reads. -/
structure SettleEnv where
  localPeer : String
  localSolSigner : String
  myRfqTradeIds : List String
  usdtMint : Option String
  defaultWindow : Int
  nowMs : Int
  nowSec : Int
deriving DecidableEq, Repr

/-- A settlement candidate: one non-terminal trade context with its
negotiation record and the oracles for the tool calls the stage may
make (`payPreimage`: the `preimage_hex` a successful `ln_pay` returns;
`receiptFetch`: the `sol_claim` receipts fallback, `none` = the lookup
itself threw, `some p` = a row with `ln_preimage_hex = p`). -/
structure TradeCand where
  ctx : TradeCtx
  neg : Option NegCtx
  toolOk : Bool
  payPreimage : Option String
  receiptFetch : Option (Option String)
deriving DecidableEq, Repr

/-- `terms_post` stage `try` body (tradeAuto.js lines 949-989): the
required-economics validation raises before the tool is reached. -/
def termsPostBody (env : SettleEnv) (c : TradeCand) : StageBody :=
  let quoteBody := (c.neg.bind (·.quote)).bind (·.body)
  let rfqBody := (c.neg.bind (·.rfq)).bind (·.body)
  let btcSats := (quoteBody.bind (·.btc_sats)) <|> (rfqBody.bind (·.btc_sats))
  let usdtAmount := jsTrim (optStr ((quoteBody.bind (·.usdt_amount)) <|> (rfqBody.bind (·.usdt_amount))))
  let solRecipient := jsTrim (optStr (rfqBody.bind (·.sol_recipient)))
  let solRefund := env.localSolSigner
  let tradeFeeCollector := jsTrim (optStr (quoteBody.bind (·.trade_fee_collector)))
  let lnPayerPeer := jsLower (jsTrim (jsOr (optStr ((c.neg.bind (·.quote_accept)).bind (·.signer)))
    (optStr ((c.neg.bind (·.rfq)).bind (·.signer)))))
  let solMint := jsTrim (jsOr (optStr env.usdtMint)
    (jsOr (optStr (rfqBody.bind (·.sol_mint))) (optStr (quoteBody.bind (·.sol_mint)))))
  if btcSats.isNone ∨ (∃ b, btcSats = some b ∧ b < 1) then .throwPre
  else if ¬ isDigits usdtAmount then .throwPre
  else if solMint = "" then .throwPre
  else if solRecipient = "" then .throwPre
  else if solRefund = "" then .throwPre
  else if tradeFeeCollector = "" then .throwPre
  else if lnPayerPeer = "" then .throwPre
  else .invoke c.toolOk id

/-- `terms_accept` stage `try` body (tradeAuto.js lines 1006-1012): the
two binding checks raise, then the accept tool is called. -/
def termsAcceptBody (env : SettleEnv) (c : TradeCand) : StageBody :=
  if ¬ (termsBoundToLocalIdentity env.localPeer c.ctx.terms = true) then .throwPre
  else if ¬ (termsBoundToLocalSolRecipient env.localSolSigner c.ctx.terms = true) then .throwPre
  else .invoke c.toolOk id

/-- `ln_invoice` stage `try` body (tradeAuto.js lines 1029-1041). -/
def lnInvoiceBody (c : TradeCand) : StageBody :=
  let btcSats := ((c.ctx.terms.bind (·.body)).bind (·.btc_sats))
  if btcSats.isNone ∨ (∃ b, btcSats = some b ∧ b < 1) then .throwPre
  else .invoke c.toolOk id

/-- `sol_escrow` stage `try` body (tradeAuto.js lines 1058-1090). -/
def solEscrowBody (env : SettleEnv) (c : TradeCand) : StageBody :=
  let termsBody := c.ctx.terms.bind (·.body)
  let paymentHashHex := jsLower (jsTrim (optStr (c.ctx.invoice.bind (·.body_payment_hash_hex))))
  let mint := jsTrim (jsOr (optStr (termsBody.bind (·.sol_mint))) (optStr env.usdtMint))
  let amount := jsTrim (optStr (termsBody.bind (·.usdt_amount)))
  let recipient := jsTrim (optStr (termsBody.bind (·.sol_recipient)))
  let refund := jsTrim (optStr (termsBody.bind (·.sol_refund)))
  let refundAfterUnix := termsBody.bind (·.sol_refund_after_unix)
  let tradeFeeCollector := jsTrim (optStr (termsBody.bind (·.trade_fee_collector)))
  if ¬ (isLowerHexOfLen 64 paymentHashHex = true) then .throwPre
  else if mint = "" then .throwPre
  else if ¬ isDigits amount then .throwPre
  else if recipient = "" then .throwPre
  else if refund = "" then .throwPre
  else if refundAfterUnix.isNone ∨ (∃ r, refundAfterUnix = some r ∧ r < 1) then .throwPre
  else if tradeFeeCollector = "" then .throwPre
  else .invoke c.toolOk id

/-- `ln_pay` stage `try` body (tradeAuto.js lines 1107-1124): binding
checks raise; on success the returned preimage is cached (when 64-hex)
and `_pruneCaches()` runs, before `_markStageSuccess`. -/
def lnPayBody (opts : DriverOpts) (env : SettleEnv) (tradeId : String) (c : TradeCand) :
    StageBody :=
  if ¬ (termsBoundToLocalIdentity env.localPeer c.ctx.terms = true) then .throwPre
  else if ¬ (termsBoundToLocalSolRecipient env.localSolSigner c.ctx.terms = true) then .throwPre
  else
    .invoke c.toolOk (fun s =>
      let preimageHex := jsLower (jsTrim (optStr c.payPreimage))
      pruneCaches opts env.nowMs
        (if isLowerHexOfLen 64 preimageHex = true then
          { s with tradePreimage := mapSet s.tradePreimage tradeId preimageHex }
        else s))

/-- `sol_claim` stage `try` body and its pre-tool cache work
(tradeAuto.js lines 1138-1156): sol-recipient binding and mint checks
raise; the preimage is read from the in-memory cache and, failing that,
from the receipts store (that lookup itself may throw; a fetched valid
preimage is cached and `_pruneCaches()` runs); a still-missing preimage
raises; only then is the claim tool invoked. -/
def solClaimParts (opts : DriverOpts) (env : SettleEnv) (tradeId : String) (c : TradeCand)
    (st : DriverState) : (DriverState → DriverState) × StageBody :=
  if ¬ (termsBoundToLocalSolRecipient env.localSolSigner c.ctx.terms = true) then (id, .throwPre)
  else
    let termsBody := c.ctx.terms.bind (·.body)
    let mint := jsTrim (jsOr (optStr (termsBody.bind (·.sol_mint))) (optStr env.usdtMint))
    if mint = "" then (id, .throwPre)
    else
      let cached := jsLower (jsTrim (optStr (st.tradePreimage.lookup tradeId)))
      if isLowerHexOfLen 64 cached = true then (id, .invoke c.toolOk id)
      else
        match c.receiptFetch with
        | none => (id, .throwPre)
        | some rec =>
          let fetched := jsLower (jsTrim (optStr rec))
          let cacheWork := fun s => pruneCaches opts env.nowMs
            (if isLowerHexOfLen 64 fetched = true then
              { s with tradePreimage := mapSet s.tradePreimage tradeId fetched }
            else s)
          if isLowerHexOfLen 64 fetched = true then (cacheWork, .invoke c.toolOk id)
          else (cacheWork, .throwPre)

/-- The six-stage `if … continue` chain of the settlement loop
(tradeAuto.js lines 945-1166), after the gates have passed; `tradeId`,
`iAmMaker` and `iAmTaker` are the values the loop computed. -/
def settleStages (opts : DriverOpts) (env : SettleEnv) (st : DriverState) (c : TradeCand)
    (tradeId : String) (iAmMaker iAmTaker : Bool) : DriverState × SettleOutcome :=
  if iAmMaker = true ∧ c.ctx.terms.isNone ∧ (c.neg.bind (·.quote)).isSome ∧
      (c.neg.bind (·.rfq)).isSome ∧ (c.neg.bind (·.quote_accept)).isSome then
    runStage env.nowMs st "terms_post" (tradeId ++ ":terms_post") 10000 id (termsPostBody env c)
  else if iAmTaker = true ∧ c.ctx.terms.isSome ∧ c.ctx.accept.isNone then
    runStage env.nowMs st "terms_accept" (tradeId ++ ":terms_accept") 10000 id
      (termsAcceptBody env c)
  else if iAmMaker = true ∧ c.ctx.terms.isSome ∧ c.ctx.accept.isSome ∧
      c.ctx.invoice.isNone then
    runStage env.nowMs st "ln_invoice" (tradeId ++ ":ln_invoice") 10000 id (lnInvoiceBody c)
  else if iAmMaker = true ∧ c.ctx.terms.isSome ∧ c.ctx.invoice.isSome ∧
      c.ctx.escrow.isNone then
    runStage env.nowMs st "sol_escrow" (tradeId ++ ":sol_escrow") 10000 id
      (solEscrowBody env c)
  else if iAmTaker = true ∧ c.ctx.terms.isSome ∧ c.ctx.invoice.isSome ∧
      c.ctx.escrow.isSome ∧ c.ctx.ln_paid.isNone then
    runStage env.nowMs st "ln_pay" (tradeId ++ ":ln_pay") 10000 id
      (lnPayBody opts env tradeId c)
  else if iAmTaker = true ∧ c.ctx.terms.isSome ∧ c.ctx.ln_paid.isSome ∧
      ¬ c.ctx.claimed = true then
    runStage env.nowMs st "sol_claim" (tradeId ++ ":sol_claim") 15000
      (solClaimParts opts env tradeId c st).1 (solClaimParts opts env tradeId c st).2
  else (st, .skipped)

/-- The settlement state machine for one trade context (tradeAuto.js
lines 902-1167): empty-id, terminal, role and `swap:`-channel gates,
then the stage chain. -/
def settleStep (opts : DriverOpts) (env : SettleEnv) (st : DriverState) (c : TradeCand) :
    DriverState × SettleOutcome :=
  if jsTrim (optStr c.ctx.trade_id) = "" then (st, .skipped)
  else if c.ctx.claimed = true ∨ c.ctx.refunded = true ∨ c.ctx.canceled = true then
    (st, .skipped)
  else if ¬ (iAmMakerOf env.localPeer
        (makerSignerOf (c.ctx.terms.bind (·.signer)) ((c.neg.bind (·.quote)).bind (·.signer))) ||
      iAmTakerOf env.localPeer
        (takerSignerOf (c.ctx.accept.bind (·.signer))
          ((c.neg.bind (·.quote_accept)).bind (·.signer))
          ((c.neg.bind (·.rfq)).bind (·.signer)))
        (jsTrim (optStr c.ctx.trade_id)) env.myRfqTradeIds) = true then (st, .skipped)
  else if ¬ (jsTrim (jsOr (optStr c.ctx.channel)
      (jsOr (optStr (c.neg.bind (·.swap_channel)))
        ("swap:" ++ jsTrim (optStr c.ctx.trade_id))))).startsWith "swap:" = true then
    (st, .skipped)
  else
    settleStages opts env st c (jsTrim (optStr c.ctx.trade_id))
      (iAmMakerOf env.localPeer
        (makerSignerOf (c.ctx.terms.bind (·.signer)) ((c.neg.bind (·.quote)).bind (·.signer))))
      (iAmTakerOf env.localPeer
        (takerSignerOf (c.ctx.accept.bind (·.signer))
          ((c.neg.bind (·.quote_accept)).bind (·.signer))
          ((c.neg.bind (·.rfq)).bind (·.signer)))
        (jsTrim (optStr c.ctx.trade_id)) env.myRfqTradeIds)

/-- One pipeline guarded by its enable flag and the shared budget
(`if (this.opts.enable_… && actionsLeft > 0)`). -/
def pipeIf {C : Type} (enabled : Bool) (step : DriverState → C → DriverState) (cs : List C)
    (st : DriverState) : DriverState :=
  if enabled && decide (st.actionsLeft > 0) then runQueue step st cs else st

/-- The per-tick context the dispatch consumes (queues already filtered,
ordered and reversed as in `_tick`, plus the `_buildContexts` outputs
the loops read). -/
structure TickCtx where
  rfqQueue : List RfqCand
  quoteQueue : List QuoteCand
  acceptQueue : List AcceptCand
  inviteQueue : List InviteCand
  tradeQueue : List TradeCand
  myOfferEvents : List OfferEvt
  myQuoteIds : List String
  terminalTradeIds : List String

/-- The dispatch phase of `_tick` (tradeAuto.js lines 711-1168): the
shared `actionsLeft = 12` budget and the five pipelines in source
order. -/
def tickDispatch (opts : DriverOpts) (env : SettleEnv) (ctx : TickCtx) (st0 : DriverState) :
    DriverState :=
  let s1 := { st0 with actionsLeft := 12 }
  let s2 := pipeIf opts.enableQuoteFromOffers
    (quoteFromOfferStep opts env.nowMs env.nowSec ctx.myOfferEvents) ctx.rfqQueue s1
  let s3 := pipeIf opts.enableAcceptQuotes
    (fun s c => (acceptQuoteStep opts env.nowMs env.myRfqTradeIds ctx.terminalTradeIds s c).1)
    ctx.quoteQueue s2
  let s4 := pipeIf opts.enableInviteFromAccepts
    (inviteFromAcceptStep opts env.nowMs ctx.myQuoteIds) ctx.acceptQueue s3
  let s5 := pipeIf opts.enableJoinInvites
    (joinInviteStep opts env.nowMs env.localPeer ctx.terminalTradeIds) ctx.inviteQueue s4
  pipeIf opts.enableSettlement (fun s c => (settleStep opts env s c).1)
    (ctx.tradeQueue.take (max 0 opts.maxTrades).toNat) s5

/-- A `message.sig` that is *not* exactly 128 hexadecimal characters
(129 characters: 128 `a`s and a trailing space). -/
def sigWithSpace : String := String.mk (List.replicate 128 'a') ++ " "

set_option maxRecDepth 4000 in
/-- Counterexample for C10: `envelopeSig` trims before testing, so a
whitespace-padded signature — not a string of exactly 128 hexadecimal
characters — still yields a non-empty extracted sig, and such an event
is not excluded by the sig guard. -/
theorem envelopeSig_not_exact_cex :
    isHexOfLen 128 sigWithSpace = false ∧
    envelopeSig (some sigWithSpace) = String.mk (List.replicate 128 'a') := by
  constructor
  · decide
  · decide

/-- C10 (amended): `envelopeSig` returns the empty string unless
`message.sig`, *after trimming surrounding whitespace and lowercasing*,
is exactly 128 (lowercase) hexadecimal characters — a missing sig gives
the empty string, and a non-empty result is always that trimmed,
lowercased 128-hex form; and both the quote-from-offer and accept-quote
pipeline loop bodies leave the state untouched (never act) on any event
whose extracted sig is empty, so unsigned or malformed-signature events
can never trigger a quote or an accept. -/
theorem envelopeSig_guard_spec :
    (envelopeSig none = "") ∧
    (∀ s, envelopeSig (some s) ≠ "" ↔ isLowerHexOfLen 128 (jsLower (jsTrim s)) = true) ∧
    (∀ s, envelopeSig (some s) = "" ∨ envelopeSig (some s) = jsLower (jsTrim s)) ∧
    (∀ opts nowMs nowSec offers st c, envelopeSig c.sig = "" →
      quoteFromOfferStep opts nowMs nowSec offers st c = st) ∧
    (∀ opts nowMs myRfq terminal st c, envelopeSig c.sig = "" →
      acceptQuoteStep opts nowMs myRfq terminal st c = (st, .skipped)) := by
  refine ⟨?_, ?_, ?_, ?_, ?_⟩
  · rfl
  · intro s
    by_cases h : isLowerHexOfLen 128 (jsLower (jsTrim s)) = true <;>
      simp [envelopeSig, optStr, h]
    intro hlen
    rw [hlen] at h
    exact absurd h (by decide)
  · intro s
    by_cases h : isLowerHexOfLen 128 (jsLower (jsTrim s)) = true <;>
      simp [envelopeSig, optStr, h]
  · intro opts nowMs nowSec offers st c hsig
    unfold quoteFromOfferStep
    split
    · rfl
    · rw [hsig]
      simp
  · intro opts nowMs myRfq terminal st c hsig
    unfold acceptQuoteStep
    split
    · rfl
    · rw [hsig]
      simp

/-- A state transformer that leaves the budget and the action counter
alone. -/
def BudgetPreserving (f : DriverState → DriverState) : Prop :=
  ∀ s, (f s).actions = s.actions ∧ (f s).actionsLeft = s.actionsLeft

/-- A pipeline loop body either leaves `actions`/`actionsLeft` alone or
performs exactly one action: `actions + 1`, `actionsLeft - 1`. -/
def BudgetStep {C : Type} (step : DriverState → C → DriverState) : Prop :=
  ∀ st c, (step st c).actions + (step st c).actionsLeft = st.actions + st.actionsLeft ∧
    (step st c).actionsLeft ≤ st.actionsLeft ∧ st.actionsLeft - 1 ≤ (step st c).actionsLeft

theorem pruneCaches_budget (opts : DriverOpts) (nowMs : Int) :
    BudgetPreserving (pruneCaches opts nowMs) := by
  intro s
  simp [pruneCaches]

theorem quoteFromOfferStep_budget (opts : DriverOpts) (nowMs nowSec : Int)
    (offers : List OfferEvt) : BudgetStep (quoteFromOfferStep opts nowMs nowSec offers) := by
  intro st c
  unfold quoteFromOfferStep
  dsimp only
  repeat' split
  all_goals simp [pruneCaches, clearEventRetry, markEventRetry]
  all_goals omega

theorem acceptQuoteStep_budget (opts : DriverOpts) (nowMs : Int)
    (myRfq terminal : List String) :
    BudgetStep (fun s c => (acceptQuoteStep opts nowMs myRfq terminal s c).1) := by
  intro st c
  unfold acceptQuoteStep
  dsimp only
  repeat' split
  all_goals simp [pruneCaches, clearEventRetry, markEventRetry]
  all_goals omega

theorem inviteFromAcceptStep_budget (opts : DriverOpts) (nowMs : Int)
    (myQuoteIds : List String) : BudgetStep (inviteFromAcceptStep opts nowMs myQuoteIds) := by
  intro st c
  unfold inviteFromAcceptStep
  dsimp only
  repeat' split
  all_goals simp [pruneCaches, clearEventRetry, markEventRetry]
  all_goals omega

theorem joinInviteStep_budget (opts : DriverOpts) (nowMs : Int) (localPeer : String)
    (terminal : List String) : BudgetStep (joinInviteStep opts nowMs localPeer terminal) := by
  intro st c
  unfold joinInviteStep
  dsimp only
  repeat' split
  all_goals simp [pruneCaches, clearEventRetry, markEventRetry]
  all_goals omega

/-- The budget behaviour of a stage body. -/
def BodyBudget : StageBody → Prop
  | .throwPre => True
  | .invoke _ post => BudgetPreserving post

theorem runStage_not_canRun {nowMs : Int} {st : DriverState} {stage stageKey : String}
    {cooldownMs : Int} {pre : DriverState → DriverState} {body : StageBody}
    (h : canRunStage st nowMs stageKey = false) :
    runStage nowMs st stage stageKey cooldownMs pre body = (st, .skipped) := by
  unfold runStage
  simp [h]

theorem runStage_throwPre {nowMs : Int} {st : DriverState} {stage stageKey : String}
    {cooldownMs : Int} {pre : DriverState → DriverState}
    (h : canRunStage st nowMs stageKey = true) :
    runStage nowMs st stage stageKey cooldownMs pre .throwPre =
      (markStageRetry (pre { st with stageInFlight := setAdd st.stageInFlight stageKey })
        nowMs stageKey cooldownMs, .retriedPre stage) := by
  unfold runStage
  simp [h]

theorem runStage_invoke_true {nowMs : Int} {st : DriverState} {stage stageKey : String}
    {cooldownMs : Int} {pre post : DriverState → DriverState}
    (h : canRunStage st nowMs stageKey = true) :
    runStage nowMs st stage stageKey cooldownMs pre (.invoke true post) =
      (let st2 := markStageSuccess
        (post (pre { st with stageInFlight := setAdd st.stageInFlight stageKey }))
        nowMs stageKey
      ({ st2 with actionsLeft := st2.actionsLeft - 1, actions := st2.actions + 1 },
        .invoked stage true)) := by
  unfold runStage
  simp [h]

theorem runStage_invoke_false {nowMs : Int} {st : DriverState} {stage stageKey : String}
    {cooldownMs : Int} {pre post : DriverState → DriverState}
    (h : canRunStage st nowMs stageKey = true) :
    runStage nowMs st stage stageKey cooldownMs pre (.invoke false post) =
      (markStageRetry (pre { st with stageInFlight := setAdd st.stageInFlight stageKey })
        nowMs stageKey cooldownMs, .invoked stage false) := by
  unfold runStage
  simp [h]

theorem runStage_budget (nowMs : Int) (st : DriverState) (stage stageKey : String)
    (cooldownMs : Int) (pre : DriverState → DriverState) (body : StageBody)
    (hpre : BudgetPreserving pre) (hbody : BodyBudget body) :
    (runStage nowMs st stage stageKey cooldownMs pre body).1.actions +
      (runStage nowMs st stage stageKey cooldownMs pre body).1.actionsLeft =
      st.actions + st.actionsLeft ∧
    (runStage nowMs st stage stageKey cooldownMs pre body).1.actionsLeft ≤ st.actionsLeft ∧
    st.actionsLeft - 1 ≤ (runStage nowMs st stage stageKey cooldownMs pre body).1.actionsLeft := by
  obtain ⟨h1, h2⟩ := hpre { st with stageInFlight := setAdd st.stageInFlight stageKey }
  by_cases hcan : canRunStage st nowMs stageKey = true
  · cases body with
    | throwPre =>
      rw [runStage_throwPre hcan]
      refine ⟨?_, ?_, ?_⟩ <;> simp [markStageRetry, h1, h2] <;> omega
    | invoke ok post =>
      have hbb : BudgetPreserving post := hbody
      obtain ⟨h3, h4⟩ := hbb (pre { st with stageInFlight := setAdd st.stageInFlight stageKey })
      cases ok with
      | true =>
        rw [runStage_invoke_true hcan]
        refine ⟨?_, ?_, ?_⟩ <;> simp [markStageSuccess, h1, h2, h3, h4] <;> omega
      | false =>
        rw [runStage_invoke_false hcan]
        refine ⟨?_, ?_, ?_⟩ <;> simp [markStageRetry, h1, h2] <;> omega
  · rw [runStage_not_canRun (Bool.not_eq_true _ ▸ Bool.of_not_eq_true hcan)]
    exact ⟨rfl, le_refl _, by dsimp only; omega⟩

theorem termsPostBody_budget (env : SettleEnv) (c : TradeCand) :
    BodyBudget (termsPostBody env c) := by
  simp only [termsPostBody]
  repeat' split
  all_goals first
    | trivial
    | exact fun s => ⟨rfl, rfl⟩

theorem termsAcceptBody_budget (env : SettleEnv) (c : TradeCand) :
    BodyBudget (termsAcceptBody env c) := by
  simp only [termsAcceptBody]
  repeat' split
  all_goals first
    | trivial
    | exact fun s => ⟨rfl, rfl⟩

theorem lnInvoiceBody_budget (c : TradeCand) : BodyBudget (lnInvoiceBody c) := by
  simp only [lnInvoiceBody]
  repeat' split
  all_goals first
    | trivial
    | exact fun s => ⟨rfl, rfl⟩

theorem solEscrowBody_budget (env : SettleEnv) (c : TradeCand) :
    BodyBudget (solEscrowBody env c) := by
  simp only [solEscrowBody]
  repeat' split
  all_goals first
    | trivial
    | exact fun s => ⟨rfl, rfl⟩

theorem lnPayBody_budget (opts : DriverOpts) (env : SettleEnv) (tradeId : String)
    (c : TradeCand) : BodyBudget (lnPayBody opts env tradeId c) := by
  simp only [lnPayBody]
  repeat' split
  all_goals first
    | trivial
    | (refine fun s => ?_
       dsimp only
       try split
       all_goals simp [pruneCaches])

theorem solClaimParts_budget (opts : DriverOpts) (env : SettleEnv) (tradeId : String)
    (c : TradeCand) (st : DriverState) :
    BudgetPreserving (solClaimParts opts env tradeId c st).1 ∧
    BodyBudget (solClaimParts opts env tradeId c st).2 := by
  simp only [solClaimParts]
  repeat' split
  all_goals refine ⟨?_, ?_⟩
  all_goals first
    | trivial
    | exact fun s => ⟨rfl, rfl⟩
    | (refine fun s => ?_
       dsimp only
       try split
       all_goals simp [pruneCaches])

set_option maxHeartbeats 2000000 in
theorem settleStep_budget_core (opts : DriverOpts) (env : SettleEnv) (st : DriverState)
    (c : TradeCand) :
    (settleStep opts env st c).1.actions + (settleStep opts env st c).1.actionsLeft =
      st.actions + st.actionsLeft ∧
    (settleStep opts env st c).1.actionsLeft ≤ st.actionsLeft ∧
    st.actionsLeft - 1 ≤ (settleStep opts env st c).1.actionsLeft := by
  unfold settleStep
  split
  case isTrue => exact ⟨rfl, le_refl _, by dsimp only; omega⟩
  case isFalse =>
    split
    case isTrue => exact ⟨rfl, le_refl _, by dsimp only; omega⟩
    case isFalse =>
      split
      case isTrue => exact ⟨rfl, le_refl _, by dsimp only; omega⟩
      case isFalse =>
        split
        case isTrue => exact ⟨rfl, le_refl _, by dsimp only; omega⟩
        case isFalse =>
          unfold settleStages
          split
          case isTrue =>
            exact runStage_budget _ _ _ _ _ _ _ (fun s => ⟨rfl, rfl⟩) (termsPostBody_budget env c)
          case isFalse =>
            split
            case isTrue =>
              exact runStage_budget _ _ _ _ _ _ _ (fun s => ⟨rfl, rfl⟩) (termsAcceptBody_budget env c)
            case isFalse =>
              split
              case isTrue =>
                exact runStage_budget _ _ _ _ _ _ _ (fun s => ⟨rfl, rfl⟩) (lnInvoiceBody_budget c)
              case isFalse =>
                split
                case isTrue =>
                  exact runStage_budget _ _ _ _ _ _ _ (fun s => ⟨rfl, rfl⟩) (solEscrowBody_budget env c)
                case isFalse =>
                  split
                  case isTrue =>
                    exact runStage_budget _ _ _ _ _ _ _ (fun s => ⟨rfl, rfl⟩)
                      (lnPayBody_budget opts env (jsTrim (optStr c.ctx.trade_id)) c)
                  case isFalse =>
                    split
                    case isTrue =>
                      exact runStage_budget _ _ _ _ _ _ _
                        (solClaimParts_budget opts env (jsTrim (optStr c.ctx.trade_id)) c st).1
                        (solClaimParts_budget opts env (jsTrim (optStr c.ctx.trade_id)) c st).2
                    case isFalse => exact ⟨rfl, le_refl _, by dsimp only; omega⟩


theorem settleStep_budget (opts : DriverOpts) (env : SettleEnv) :
    BudgetStep (fun s c => (settleStep opts env s c).1) :=
  fun st c => settleStep_budget_core opts env st c

theorem runQueue_budget {C : Type} {step : DriverState → C → DriverState}
    (h : BudgetStep step) (cs : List C) (st : DriverState) :
    (runQueue step st cs).actions + (runQueue step st cs).actionsLeft =
      st.actions + st.actionsLeft ∧
    (runQueue step st cs).actionsLeft ≤ st.actionsLeft ∧
    (0 ≤ st.actionsLeft → 0 ≤ (runQueue step st cs).actionsLeft) := by
  induction cs generalizing st with
  | nil => exact ⟨rfl, le_refl _, fun hx => hx⟩
  | cons c rest ih =>
    unfold runQueue
    split
    · exact ⟨rfl, le_refl _, fun hx => hx⟩
    · rename_i hgt
      obtain ⟨hs1, hs2, hs3⟩ := h st c
      obtain ⟨hr1, hr2, hr3⟩ := ih (step st c)
      refine ⟨by omega, by omega, fun hx => ?_⟩
      have : 0 ≤ (step st c).actionsLeft := by omega
      exact hr3 this

theorem pipeIf_budget {C : Type} {step : DriverState → C → DriverState}
    (h : BudgetStep step) (b : Bool) (cs : List C) (st : DriverState) :
    (pipeIf b step cs st).actions + (pipeIf b step cs st).actionsLeft =
      st.actions + st.actionsLeft ∧
    (pipeIf b step cs st).actionsLeft ≤ st.actionsLeft ∧
    (0 ≤ st.actionsLeft → 0 ≤ (pipeIf b step cs st).actionsLeft) := by
  unfold pipeIf
  split
  · exact runQueue_budget h cs st
  · exact ⟨rfl, le_refl _, fun hx => hx⟩

/-- C6: across one tick's dispatch, all five pipelines draw from one
shared `actions_left` budget that starts at 12 and is decremented once
per performed action, so at most 12 budgeted external actions are
performed per tick (`stats.actions` grows by at most 12, and by exactly
`12 - actions_left_final`, which never goes negative); moreover every
pipeline runner stops processing as soon as the budget is exhausted
(with a zero or negative budget it does not touch the state at all). -/
theorem tick_action_budget (opts : DriverOpts) (env : SettleEnv) (ctx : TickCtx)
    (st0 : DriverState) :
    (tickDispatch opts env ctx st0).actions ≤ st0.actions + 12 ∧
    (tickDispatch opts env ctx st0).actions + (tickDispatch opts env ctx st0).actionsLeft =
      st0.actions + 12 ∧
    0 ≤ (tickDispatch opts env ctx st0).actionsLeft ∧
    (∀ {C : Type} (step : DriverState → C → DriverState) (st : DriverState) (cs : List C),
      st.actionsLeft ≤ 0 → runQueue step st cs = st) := by
  have hstop : ∀ {C : Type} (step : DriverState → C → DriverState) (st : DriverState)
      (cs : List C), st.actionsLeft ≤ 0 → runQueue step st cs = st := by
    intro C step st cs hle
    cases cs with
    | nil => rfl
    | cons c rest =>
      unfold runQueue
      rw [if_pos hle]
  have h1 := pipeIf_budget (quoteFromOfferStep_budget opts env.nowMs env.nowSec ctx.myOfferEvents)
    opts.enableQuoteFromOffers ctx.rfqQueue { st0 with actionsLeft := 12 }
  set s2 := pipeIf opts.enableQuoteFromOffers
    (quoteFromOfferStep opts env.nowMs env.nowSec ctx.myOfferEvents) ctx.rfqQueue
    { st0 with actionsLeft := 12 } with hs2
  have h2 := pipeIf_budget (acceptQuoteStep_budget opts env.nowMs env.myRfqTradeIds
    ctx.terminalTradeIds) opts.enableAcceptQuotes ctx.quoteQueue s2
  set s3 := pipeIf opts.enableAcceptQuotes
    (fun s c => (acceptQuoteStep opts env.nowMs env.myRfqTradeIds ctx.terminalTradeIds s c).1)
    ctx.quoteQueue s2 with hs3
  have h3 := pipeIf_budget (inviteFromAcceptStep_budget opts env.nowMs ctx.myQuoteIds)
    opts.enableInviteFromAccepts ctx.acceptQueue s3
  set s4 := pipeIf opts.enableInviteFromAccepts
    (inviteFromAcceptStep opts env.nowMs ctx.myQuoteIds) ctx.acceptQueue s3 with hs4
  have h4 := pipeIf_budget (joinInviteStep_budget opts env.nowMs env.localPeer
    ctx.terminalTradeIds) opts.enableJoinInvites ctx.inviteQueue s4
  set s5 := pipeIf opts.enableJoinInvites
    (joinInviteStep opts env.nowMs env.localPeer ctx.terminalTradeIds) ctx.inviteQueue s4
    with hs5
  have h5 := pipeIf_budget (settleStep_budget opts env) opts.enableSettlement
    (ctx.tradeQueue.take (max 0 opts.maxTrades).toNat) s5
  have hdisp : tickDispatch opts env ctx st0 =
      pipeIf opts.enableSettlement (fun s c => (settleStep opts env s c).1)
        (ctx.tradeQueue.take (max 0 opts.maxTrades).toNat) s5 := by
    rw [hs5, hs4, hs3, hs2]
    rfl
  rw [hdisp]
  have hbase1 : ({ st0 with actionsLeft := 12 } : DriverState).actions = st0.actions := rfl
  have hbase2 : ({ st0 with actionsLeft := 12 } : DriverState).actionsLeft = 12 := rfl
  rw [hbase1, hbase2] at h1
  refine ⟨by omega, by omega, by omega, hstop⟩

/-- Concrete driver options for witnesses (the started driver's
defaults). -/
def opts0 : DriverOpts :=
  { dedupeMax := 6000, stageMax := 6000, preimageMax := 2000, lockMaxAgeMs := 1200000,
    doneMaxAgeMs := 2400000, maxTrades := 120, eventMaxAgeMs := 600000,
    usdtMint := some "MintX", defaultWindow := 259200,
    enableQuoteFromOffers := true, enableAcceptQuotes := true,
    enableInviteFromAccepts := true, enableJoinInvites := true, enableSettlement := true }

/-- Concrete per-tick identities for witnesses. -/
def env0 : SettleEnv :=
  { localPeer := String.mk (List.replicate 64 'a'),
    localSolSigner := "SolSigner1", myRfqTradeIds := ["t1"],
    usdtMint := some "MintX", defaultWindow := 259200, nowMs := 5000000, nowSec := 5000 }

/-- An empty tick context. -/
def ctx0 : TickCtx :=
  { rfqQueue := [], quoteQueue := [], acceptQueue := [], inviteQueue := [], tradeQueue := [],
    myOfferEvents := [], myQuoteIds := [], terminalTradeIds := [] }

/-- An empty driver state (budget fields as at tick start). -/
def st00 : DriverState :=
  { autoQuotedRfqSig := [], autoAcceptedQuoteSig := [], autoAcceptedTradeLock := [],
    autoInvitedAcceptSig := [], autoJoinedInviteSig := [], stageDone := [],
    stageInFlight := [], stageRetryAfter := [], tradePreimage := [],
    actionsLeft := 0, actions := 0 }

/-- Witness for C6 at a concrete tick. -/
theorem tick_action_budget_witness :
    (tickDispatch opts0 env0 ctx0 st00).actions ≤ st00.actions + 12 ∧
    (tickDispatch opts0 env0 ctx0 st00).actions +
      (tickDispatch opts0 env0 ctx0 st00).actionsLeft = st00.actions + 12 ∧
    0 ≤ (tickDispatch opts0 env0 ctx0 st00).actionsLeft ∧
    (∀ {C : Type} (step : DriverState → C → DriverState) (st : DriverState) (cs : List C),
      st.actionsLeft ≤ 0 → runQueue step st cs = st) :=
  tick_action_budget opts0 env0 ctx0 st00

/-- The claimed C3 maker condition, read off the spec sentence
`i_am_maker := local_peer == terms.signer ∨ local_peer == quote.signer`
as a true disjunction over the (normalised) signers. -/
def c3MakerWording (localPeer : String) (termsSigner quoteSigner : Option String) : Prop :=
  localPeer = jsLower (jsTrim (optStr termsSigner)) ∨
  localPeer = jsLower (jsTrim (optStr quoteSigner))

/-- The claimed C3 taker condition (`accept.signer ∨ quote_accept.signer
∨ trade_id ∈ my_rfq_trade_ids`; note: no `rfq.signer` disjunct). -/
def c3TakerWording (localPeer : String) (acceptSigner quoteAcceptSigner : Option String)
    (tradeId : String) (myRfqTradeIds : List String) : Prop :=
  localPeer = jsLower (jsTrim (optStr acceptSigner)) ∨
  localPeer = jsLower (jsTrim (optStr quoteAcceptSigner)) ∨
  tradeId ∈ myRfqTradeIds

/-- Counterexample for C3, both directions. Maker: with
`terms.signer = "bb"` and `quote.signer = "aa"` and local peer `"aa"`,
the claimed disjunction holds (`local_peer = quote.signer`) but the code
computes `makerSigner = "bb"` — JS `||` stops at the first non-empty
signer — so `iAmMaker` is false.  Taker: with only `rfq.signer = "aa"`
present, the claimed disjunction is false (no rfq disjunct, trade not in
`my_rfq_trade_ids`) but the code's fallback chain ends at `rfq.signer`
and computes `iAmTaker = true`. -/
theorem settle_roles_cex :
    c3MakerWording "aa" (some "bb") (some "aa") ∧
    iAmMakerOf "aa" (makerSignerOf (some "bb") (some "aa")) = false ∧
    ¬ c3TakerWording "aa" none none "t1" [] ∧
    iAmTakerOf "aa" (takerSignerOf none none (some "aa")) "t1" [] = true := by
  refine ⟨Or.inr (by decide), by decide, ?_, by decide⟩
  intro h
  rcases h with h | h | h
  · revert h; decide
  · revert h; decide
  · exact absurd h (by decide)

/-- The first truthy (non-empty) string of a list — the value a JS `||`
chain selects. -/
def firstTruthy : List (Option String) → String
  | [] => ""
  | o :: rest => if optStr o = "" then firstTruthy rest else optStr o

/-- C3 (amended): the code does not take a true disjunction over the
matching signers; each role compares the local peer against the *first
non-empty* signer of a JS `||` fallback chain, trimmed and lowercased —
`(terms.signer, quote.signer)` for the maker and
`(accept.signer, quote_accept.signer, rfq.signer)` (the claim omits the
`rfq.signer` member) for the taker — with
`trade_id ∈ my_rfq_trade_ids` as the only genuine extra disjunct of the
taker role, and a non-empty local peer required for the signer-based
conditions. -/
theorem settle_roles_amended (localPeer : String)
    (termsSigner quoteSigner acceptSigner quoteAcceptSigner rfqSigner : Option String)
    (tradeId : String) (myRfqTradeIds : List String) :
    (iAmMakerOf localPeer (makerSignerOf termsSigner quoteSigner) = true ↔
      (localPeer ≠ "" ∧ jsLower (jsTrim (firstTruthy [termsSigner, quoteSigner])) ≠ "" ∧
        jsLower (jsTrim (firstTruthy [termsSigner, quoteSigner])) = localPeer)) ∧
    (iAmTakerOf localPeer (takerSignerOf acceptSigner quoteAcceptSigner rfqSigner)
        tradeId myRfqTradeIds = true ↔
      ((localPeer ≠ "" ∧
        jsLower (jsTrim (firstTruthy [acceptSigner, quoteAcceptSigner, rfqSigner])) ≠ "" ∧
        jsLower (jsTrim (firstTruthy [acceptSigner, quoteAcceptSigner, rfqSigner])) =
          localPeer) ∨
        tradeId ∈ myRfqTradeIds)) := by
  have hm : firstTruthy [termsSigner, quoteSigner] =
      jsOr (optStr termsSigner) (optStr quoteSigner) := by
    by_cases h1 : optStr termsSigner = "" <;> by_cases h2 : optStr quoteSigner = "" <;>
      simp [firstTruthy, jsOr, h1, h2]
  have ht : firstTruthy [acceptSigner, quoteAcceptSigner, rfqSigner] =
      jsOr (optStr acceptSigner) (jsOr (optStr quoteAcceptSigner) (optStr rfqSigner)) := by
    by_cases h1 : optStr acceptSigner = "" <;> by_cases h2 : optStr quoteAcceptSigner = "" <;>
      by_cases h3 : optStr rfqSigner = "" <;>
      simp [firstTruthy, jsOr, h1, h2, h3]
  constructor
  · rw [hm]
    unfold iAmMakerOf makerSignerOf
    constructor
    · intro h
      simp only [Bool.and_eq_true, bne_iff_ne, ne_eq, beq_iff_eq] at h
      exact ⟨h.1.1, h.1.2, h.2⟩
    · intro ⟨h1, h2, h3⟩
      simp only [Bool.and_eq_true, bne_iff_ne, ne_eq, beq_iff_eq]
      exact ⟨⟨h1, h2⟩, h3⟩
  · rw [ht]
    unfold iAmTakerOf takerSignerOf
    constructor
    · intro h
      simp only [Bool.or_eq_true, Bool.and_eq_true, bne_iff_ne, ne_eq, beq_iff_eq,
        List.elem_iff, List.contains] at h
      rcases h with ⟨⟨h1, h2⟩, h3⟩ | h
      · exact Or.inl ⟨h1, h2, h3⟩
      · exact Or.inr h
    · intro h
      simp only [Bool.or_eq_true, Bool.and_eq_true, bne_iff_ne, ne_eq, beq_iff_eq,
        List.elem_iff, List.contains]
      rcases h with ⟨h1, h2, h3⟩ | h
      · exact Or.inl ⟨⟨h1, h2⟩, h3⟩
      · exact Or.inr h

/-- Witness for the amended C3 at the counterexample's inputs. -/
theorem settle_roles_amended_witness :
    ((iAmMakerOf "aa" (makerSignerOf (some "bb") (some "aa")) = true ↔
      (("aa" : String) ≠ "" ∧ jsLower (jsTrim (firstTruthy [some "bb", some "aa"])) ≠ "" ∧
        jsLower (jsTrim (firstTruthy [some "bb", some "aa"])) = "aa")) ∧
    (iAmTakerOf "aa" (takerSignerOf none none (some "aa")) "t1" [] = true ↔
      ((("aa" : String) ≠ "" ∧
        jsLower (jsTrim (firstTruthy [none, none, some "aa"])) ≠ "" ∧
        jsLower (jsTrim (firstTruthy [none, none, some "aa"])) = "aa") ∨
        ("t1" : String) ∈ ([] : List String)))) :=
  settle_roles_amended "aa" (some "bb") (some "aa") none none (some "aa") "t1" []

theorem lookup_cons_eq {α : Type} (k : String) (v : α) (rest : List (String × α)) (a : String) :
    ((k, v) :: rest).lookup a = if a == k then some v else rest.lookup a := by
  cases h : a == k <;> simp [List.lookup, h]

theorem lookup_mapSet {α : Type} (m : List (String × α)) (k : String) (v : α) :
    (mapSet m k v).lookup k = some v := by
  unfold mapSet
  split
  · rename_i hsome
    induction m with
    | nil => simp at hsome
    | cons kv rest ih =>
      obtain ⟨k0, v0⟩ := kv
      by_cases hk : k0 = k
      · subst hk
        simp [List.map_cons, lookup_cons_eq]
      · rw [lookup_cons_eq] at hsome
        rw [if_neg (by simp [Ne.symm hk] : ¬ (k == k0) = true)] at hsome
        simp only [List.map_cons]
        rw [if_neg hk, lookup_cons_eq, if_neg (by simp [Ne.symm hk] : ¬ (k == k0) = true)]
        exact ih hsome
  · rename_i hnone
    induction m with
    | nil => simp [lookup_cons_eq]
    | cons kv rest ih =>
      obtain ⟨k0, v0⟩ := kv
      rw [lookup_cons_eq] at hnone
      by_cases hk : k0 = k
      · subst hk
        simp at hnone
      · rw [if_neg (by simp [Ne.symm hk] : ¬ (k == k0) = true)] at hnone
        simp only [List.cons_append]
        rw [lookup_cons_eq, if_neg (by simp [Ne.symm hk] : ¬ (k == k0) = true)]
        exact ih hnone

theorem runStage_snd_invoked {nowMs : Int} {st : DriverState} {stage stageKey stage' : String}
    {cooldownMs : Int} {pre : DriverState → DriverState} {body : StageBody} {ok : Bool}
    (h : (runStage nowMs st stage stageKey cooldownMs pre body).2 = .invoked stage' ok) :
    stage' = stage ∧ ∃ post, body = .invoke ok post := by
  by_cases hcan : canRunStage st nowMs stageKey = true
  · cases body with
    | throwPre =>
      rw [runStage_throwPre hcan] at h
      exact absurd h (by simp)
    | invoke ok0 post =>
      cases ok0 with
      | true =>
        rw [runStage_invoke_true hcan] at h
        simp only [SettleOutcome.invoked.injEq] at h
        obtain ⟨h1, h2⟩ := h
        subst h1
        subst h2
        exact ⟨rfl, post, rfl⟩
      | false =>
        rw [runStage_invoke_false hcan] at h
        simp only [SettleOutcome.invoked.injEq] at h
        obtain ⟨h1, h2⟩ := h
        subst h1
        subst h2
        exact ⟨rfl, post, rfl⟩
  · rw [runStage_not_canRun (by simpa using hcan)] at h
    exact absurd h (by simp)

theorem runStage_retriedPre_lookup {nowMs : Int} {st : DriverState}
    {stage stageKey stage' : String} {cooldownMs : Int} {pre : DriverState → DriverState}
    {body : StageBody}
    (h : (runStage nowMs st stage stageKey cooldownMs pre body).2 = .retriedPre stage') :
    stage' = stage ∧
      ((runStage nowMs st stage stageKey cooldownMs pre body).1.stageRetryAfter.lookup
          stageKey) = some (nowMs + max 1000 cooldownMs) := by
  by_cases hcan : canRunStage st nowMs stageKey = true
  · cases body with
    | throwPre =>
      rw [runStage_throwPre hcan] at h ⊢
      simp only [SettleOutcome.retriedPre.injEq] at h
      subst h
      exact ⟨rfl, lookup_mapSet _ _ _⟩
    | invoke ok post =>
      cases ok with
      | true =>
        rw [runStage_invoke_true hcan] at h
        exact absurd h (by simp)
      | false =>
        rw [runStage_invoke_false hcan] at h
        exact absurd h (by simp)
  · rw [runStage_not_canRun (by simpa using hcan)] at h
    exact absurd h (by simp)

theorem termsBound_id_false_of_ne {localPeer : String} {terms : Option TermsEnv}
    (hs : terms.isSome = true) (hne : termsLnPayerOf terms ≠ localPeer) :
    termsBoundToLocalIdentity localPeer terms = false := by
  cases terms with
  | none => simp at hs
  | some t =>
    simp only [termsBoundToLocalIdentity]
    split_ifs <;> simp [hne]

theorem termsBound_sol_false_of_ne {localSolSigner : String} {terms : Option TermsEnv}
    (hs : terms.isSome = true) (hne : termsSolRecipientOf terms ≠ localSolSigner) :
    termsBoundToLocalSolRecipient localSolSigner terms = false := by
  cases terms with
  | none => simp at hs
  | some t =>
    simp only [termsBoundToLocalSolRecipient]
    split_ifs <;> simp [hne]

theorem lnPayBody_throwPre_of_unbound {opts : DriverOpts} {env : SettleEnv} {tradeId : String}
    {c : TradeCand}
    (h : termsBoundToLocalIdentity env.localPeer c.ctx.terms = false ∨
      termsBoundToLocalSolRecipient env.localSolSigner c.ctx.terms = false) :
    lnPayBody opts env tradeId c = .throwPre := by
  unfold lnPayBody
  rcases h with h | h <;> simp [h]

theorem solClaimParts_snd_throwPre_of_unbound {opts : DriverOpts} {env : SettleEnv}
    {tradeId : String} {c : TradeCand} {st : DriverState}
    (h : termsBoundToLocalSolRecipient env.localSolSigner c.ctx.terms = false) :
    (solClaimParts opts env tradeId c st).2 = .throwPre := by
  unfold solClaimParts
  simp [h]

set_option maxHeartbeats 2000000 in
/-- C1: with a terms envelope present, the settlement driver never invokes the
`ln_pay` tool when `terms.ln_payer_peer` (trimmed, lowercased) differs from the
local peer key, never invokes the `sol_claim` tool when `terms.sol_recipient`
(trimmed) differs from the local chain signer, and whenever a stage's body raises
before its tool call the stage is marked for retry: its `tradeId:stage` key maps
to `now + cooldown` (15 s for `sol_claim`, 10 s for the others) in
`stageRetryAfter`. -/
theorem settle_binding_checks (opts : DriverOpts) (env : SettleEnv) (st : DriverState)
    (c : TradeCand) (hterms : c.ctx.terms.isSome = true) :
    (∀ ok : Bool, termsLnPayerOf c.ctx.terms ≠ env.localPeer →
        (settleStep opts env st c).2 ≠ .invoked "ln_pay" ok) ∧
    (∀ ok : Bool, termsSolRecipientOf c.ctx.terms ≠ env.localSolSigner →
        (settleStep opts env st c).2 ≠ .invoked "sol_claim" ok) ∧
    (∀ stage : String, (settleStep opts env st c).2 = .retriedPre stage →
        ((settleStep opts env st c).1.stageRetryAfter.lookup
            (jsTrim (optStr c.ctx.trade_id) ++ ":" ++ stage)) =
          some (env.nowMs + (if stage = "sol_claim" then 15000 else 10000))) := by
  refine ⟨?_, ?_, ?_⟩
  · intro ok hne
    have hb := termsBound_id_false_of_ne hterms hne
    unfold settleStep
    split
    case isTrue => simp
    case isFalse =>
      split
      case isTrue => simp
      case isFalse =>
        split
        case isTrue => simp
        case isFalse =>
          split
          case isTrue => simp
          case isFalse =>
            unfold settleStages
            split
            case isTrue =>
                      intro h
                      obtain (⟨hst, -⟩) := runStage_snd_invoked h
                      exact absurd hst (by decide)
            case isFalse =>
              split
              case isTrue =>
                      intro h
                      obtain (⟨hst, -⟩) := runStage_snd_invoked h
                      exact absurd hst (by decide)
              case isFalse =>
                split
                case isTrue =>
                      intro h
                      obtain (⟨hst, -⟩) := runStage_snd_invoked h
                      exact absurd hst (by decide)
                case isFalse =>
                  split
                  case isTrue =>
                      intro h
                      obtain (⟨hst, -⟩) := runStage_snd_invoked h
                      exact absurd hst (by decide)
                  case isFalse =>
                    split
                    case isTrue =>
                      intro h
                      obtain (⟨-, post, hbody⟩) := runStage_snd_invoked h
                      rw [lnPayBody_throwPre_of_unbound (Or.inl hb)] at hbody
                      exact StageBody.noConfusion hbody
                    case isFalse =>
                      split
                      case isTrue =>
                        intro h
                        obtain (⟨hst, -⟩) := runStage_snd_invoked h
                        exact absurd hst (by decide)
                      case isFalse => simp
  · intro ok hne
    have hb := termsBound_sol_false_of_ne hterms hne
    unfold settleStep
    split
    case isTrue => simp
    case isFalse =>
      split
      case isTrue => simp
      case isFalse =>
        split
        case isTrue => simp
        case isFalse =>
          split
          case isTrue => simp
          case isFalse =>
            unfold settleStages
            split
            case isTrue =>
                      intro h
                      obtain (⟨hst, -⟩) := runStage_snd_invoked h
                      exact absurd hst (by decide)
            case isFalse =>
              split
              case isTrue =>
                      intro h
                      obtain (⟨hst, -⟩) := runStage_snd_invoked h
                      exact absurd hst (by decide)
              case isFalse =>
                split
                case isTrue =>
                      intro h
                      obtain (⟨hst, -⟩) := runStage_snd_invoked h
                      exact absurd hst (by decide)
                case isFalse =>
                  split
                  case isTrue =>
                      intro h
                      obtain (⟨hst, -⟩) := runStage_snd_invoked h
                      exact absurd hst (by decide)
                  case isFalse =>
                    split
                    case isTrue =>
                      intro h
                      obtain (⟨hst, -⟩) := runStage_snd_invoked h
                      exact absurd hst (by decide)
                    case isFalse =>
                      split
                      case isTrue =>
                        intro h
                        obtain (⟨-, post, hbody⟩) := runStage_snd_invoked h
                        rw [solClaimParts_snd_throwPre_of_unbound hb] at hbody
                        exact StageBody.noConfusion hbody
                      case isFalse => simp
  · intro stage
    unfold settleStep
    split
    case isTrue => intro h; exact absurd h (by simp)
    case isFalse =>
      split
      case isTrue => intro h; exact absurd h (by simp)
      case isFalse =>
        split
        case isTrue => intro h; exact absurd h (by simp)
        case isFalse =>
          split
          case isTrue => intro h; exact absurd h (by simp)
          case isFalse =>
            unfold settleStages
            split
            case isTrue =>
                      intro h
                      obtain (⟨hst, hlk⟩) := runStage_retriedPre_lookup h
                      subst hst
                      simp only [String.append_assoc, String.reduceAppend]
                      rw [hlk]
                      norm_num
                      all_goals decide
            case isFalse =>
              split
              case isTrue =>
                      intro h
                      obtain (⟨hst, hlk⟩) := runStage_retriedPre_lookup h
                      subst hst
                      simp only [String.append_assoc, String.reduceAppend]
                      rw [hlk]
                      norm_num
                      all_goals decide
              case isFalse =>
                split
                case isTrue =>
                      intro h
                      obtain (⟨hst, hlk⟩) := runStage_retriedPre_lookup h
                      subst hst
                      simp only [String.append_assoc, String.reduceAppend]
                      rw [hlk]
                      norm_num
                      all_goals decide
                case isFalse =>
                  split
                  case isTrue =>
                      intro h
                      obtain (⟨hst, hlk⟩) := runStage_retriedPre_lookup h
                      subst hst
                      simp only [String.append_assoc, String.reduceAppend]
                      rw [hlk]
                      norm_num
                      all_goals decide
                  case isFalse =>
                    split
                    case isTrue =>
                      intro h
                      obtain (⟨hst, hlk⟩) := runStage_retriedPre_lookup h
                      subst hst
                      simp only [String.append_assoc, String.reduceAppend]
                      rw [hlk]
                      norm_num
                      all_goals decide
                    case isFalse =>
                      split
                      case isTrue =>
                        intro h
                        obtain (⟨hst, hlk⟩) := runStage_retriedPre_lookup h
                        subst hst
                        simp only [String.append_assoc, String.reduceAppend]
                        rw [hlk]
                        norm_num
                        all_goals decide
                      case isFalse => intro h; exact absurd h (by simp)

/-- Concrete terms body bound to a different peer, for the binding witness. -/
def c1termsBody : TermsBody :=
  { btc_sats := some 1000, usdt_amount := some "5", sol_mint := some "MintX",
    sol_recipient := some "SomeoneElse", sol_refund := some "Ref",
    sol_refund_after_unix := some 6000, ln_payer_peer := some "bb",
    trade_fee_collector := some "Fee" }

/-- Concrete terms envelope for the binding witness. -/
def c1terms : TermsEnv := { signer := some "sig", body := some c1termsBody }

/-- A trade context whose terms name another `ln_payer_peer`. -/
def c1ctx : TradeCtx :=
  { trade_id := some "t9", channel := some "swap:t9", terms := some c1terms,
    accept := none, invoice := none, escrow := none, ln_paid := none,
    claimed := false, refunded := false, canceled := false }

/-- A trade candidate whose terms name another `ln_payer_peer`. -/
def c1cand : TradeCand :=
  { ctx := c1ctx, neg := none, toolOk := true, payPreimage := none, receiptFetch := none }

/-- Witness for C1: a concrete candidate whose terms bind another peer is never
`ln_pay`-invoked. -/
theorem settle_binding_checks_witness :
    (settleStep opts0 env0 st00 c1cand).2 ≠ .invoked "ln_pay" true :=
  (settle_binding_checks opts0 env0 st00 c1cand (by rfl)).1 true (by decide)

theorem pruneListByLimit_eq_of_le {α : Type} {l : List α} {lim : Int}
    (h : l.length ≤ (max 1 lim).toNat) : pruneListByLimit l lim = l := by
  unfold pruneListByLimit
  rw [Nat.sub_eq_zero_of_le h]
  exact List.drop_zero l

theorem pruneListByLimit_length_le {α : Type} (l : List α) (lim : Int) :
    (pruneListByLimit l lim).length ≤ l.length := by
  unfold pruneListByLimit
  rw [List.length_drop]
  omega

theorem mem_pruneListByLimit_append {α : Type} (l : List α) (x : α) (lim : Int) :
    x ∈ pruneListByLimit (l ++ [x]) lim := by
  unfold pruneListByLimit
  have hcap : 1 ≤ (max 1 lim).toNat := by
    have := le_max_left 1 lim
    omega
  have hk : (l ++ [x]).length - (max 1 lim).toNat ≤ l.length := by
    rw [List.length_append]
    simp only [List.length_singleton]
    omega
  rw [List.drop_append_of_le_length hk]
  exact List.mem_append_right _ (List.mem_singleton.mpr rfl)

theorem mem_lookup_isSome {α : Type} {l : List (String × α)} {k : String} {v : α}
    (h : (k, v) ∈ l) : (l.lookup k).isSome = true := by
  induction l with
  | nil => simp at h
  | cons kv rest ih =>
    obtain ⟨k0, v0⟩ := kv
    rw [lookup_cons_eq]
    by_cases hk : k = k0
    · simp [hk]
    · rw [if_neg (by simp [hk] : ¬ (k == k0) = true)]
      rcases List.mem_cons.mp h with heq | hmem
      · exact absurd (congrArg Prod.fst heq) hk
      · exact ih hmem

theorem mapSet_length_le {α : Type} (m : List (String × α)) (k : String) (v : α) :
    (mapSet m k v).length ≤ m.length + 1 := by
  unfold mapSet
  split
  · rw [List.length_map]
    omega
  · rw [List.length_append]
    simp

theorem mapSet_of_not_mem {α : Type} {m : List (String × α)} {k : String} (v : α)
    (h : (m.lookup k).isSome = false) : mapSet m k v = m ++ [(k, v)] := by
  unfold mapSet
  simp [h]

theorem acceptQuoteStep_skipped_of_locked {opts : DriverOpts} {nowMs : Int}
    {myRfqTradeIds terminalTradeIds : List String} {st : DriverState} {c : QuoteCand}
    (h : (st.autoAcceptedTradeLock.lookup (jsTrim (optStr c.tradeId))).isSome = true) :
    acceptQuoteStep opts nowMs myRfqTradeIds terminalTradeIds st c = (st, .skipped) := by
  unfold acceptQuoteStep
  dsimp only
  repeat' split
  all_goals first | rfl | (exfalso; simp_all)

theorem acceptQuoteStep_accepted_facts {opts : DriverOpts} {nowMs : Int}
    {myRfqTradeIds terminalTradeIds : List String} {st : DriverState} {c : QuoteCand}
    (hAge : 0 ≤ opts.lockMaxAgeMs) :
    (acceptQuoteStep opts nowMs myRfqTradeIds terminalTradeIds st c).2 = .accepted →
      jsTrim (optStr c.tradeId) ≠ "" ∧
      (jsTrim (optStr c.tradeId), nowMs) ∈
        (acceptQuoteStep opts nowMs myRfqTradeIds terminalTradeIds st c).1.autoAcceptedTradeLock ∧
      envelopeSig c.sig ∈
        (acceptQuoteStep opts nowMs myRfqTradeIds terminalTradeIds st c).1.autoAcceptedQuoteSig := by
  unfold acceptQuoteStep
  dsimp only
  split_ifs with h1 h2 h3 h4 h5 h6 h7
  all_goals intro h
  all_goals (try (exact h.elim))
  have htid : jsTrim (optStr c.tradeId) ≠ "" := fun hx => h4 (Or.inl hx)
  refine ⟨htid, ?_, ?_⟩
  · simp only [pruneCaches, clearEventRetry]
    rw [mapSet_of_not_mem _ (Bool.eq_false_iff.mpr h6)]
    rw [List.filter_append]
    have hpred : (List.filter
        (fun kv => kv.1 ≠ "" && decide (nowMs - kv.2 ≤ opts.lockMaxAgeMs))
        [(jsTrim (optStr c.tradeId), nowMs)]) = [(jsTrim (optStr c.tradeId), nowMs)] := by
      simp [htid]
      omega
    rw [hpred]
    exact mem_pruneListByLimit_append _ _ _
  · simp only [pruneCaches, clearEventRetry]
    have hsig : setAdd st.autoAcceptedQuoteSig (envelopeSig c.sig) =
        st.autoAcceptedQuoteSig ++ [envelopeSig c.sig] := by
      unfold setAdd
      rw [if_neg (fun hx => h2 (Or.inr hx))]
    rw [hsig]
    exact mem_pruneListByLimit_append _ _ _

theorem acceptQuoteStep_lock_len_le {opts : DriverOpts} {nowMs : Int}
    {myRfqTradeIds terminalTradeIds : List String} (st : DriverState) (c : QuoteCand) :
    (acceptQuoteStep opts nowMs myRfqTradeIds terminalTradeIds st c).1.autoAcceptedTradeLock.length ≤
      st.autoAcceptedTradeLock.length + 1 := by
  unfold acceptQuoteStep
  dsimp only
  split_ifs with h1 h2 h3 h4 h5 h6 h7
  all_goals (try (exact Nat.le_succ_of_le (le_refl _)))
  · simp only [pruneCaches, clearEventRetry]
    calc (pruneListByLimit ((mapSet st.autoAcceptedTradeLock (jsTrim (optStr c.tradeId))
            nowMs).filter (fun kv => kv.1 ≠ "" && decide (nowMs - kv.2 ≤ opts.lockMaxAgeMs)))
            (max opts.maxTrades opts.preimageMax)).length
        ≤ ((mapSet st.autoAcceptedTradeLock (jsTrim (optStr c.tradeId)) nowMs).filter
            (fun kv => kv.1 ≠ "" && decide (nowMs - kv.2 ≤ opts.lockMaxAgeMs))).length :=
          pruneListByLimit_length_le _ _
      _ ≤ (mapSet st.autoAcceptedTradeLock (jsTrim (optStr c.tradeId)) nowMs).length :=
          List.length_filter_le _ _
      _ ≤ st.autoAcceptedTradeLock.length + 1 := mapSet_length_le _ _ _

theorem acceptQuoteStep_lock_mem_preserved {opts : DriverOpts} {nowMs : Int}
    {myRfqTradeIds terminalTradeIds : List String} {st : DriverState} {c : QuoteCand}
    {tid : String} (hAge : 0 ≤ opts.lockMaxAgeMs) (htid : tid ≠ "")
    (hmem : (tid, nowMs) ∈ st.autoAcceptedTradeLock)
    (hlen : st.autoAcceptedTradeLock.length + 1 ≤
      (max 1 (max opts.maxTrades opts.preimageMax)).toNat) :
    (tid, nowMs) ∈
      (acceptQuoteStep opts nowMs myRfqTradeIds terminalTradeIds st c).1.autoAcceptedTradeLock := by
  unfold acceptQuoteStep
  dsimp only
  split_ifs with h1 h2 h3 h4 h5 h6 h7
  all_goals (try (exact hmem))
  simp only [pruneCaches, clearEventRetry]
  rw [mapSet_of_not_mem _ (Bool.eq_false_iff.mpr h6)]
  have hsub : ((st.autoAcceptedTradeLock ++ [(jsTrim (optStr c.tradeId), nowMs)]).filter
      (fun kv => kv.1 ≠ "" && decide (nowMs - kv.2 ≤ opts.lockMaxAgeMs))).length ≤
      (max 1 (max opts.maxTrades opts.preimageMax)).toNat := by
    calc ((st.autoAcceptedTradeLock ++ [(jsTrim (optStr c.tradeId), nowMs)]).filter
          (fun kv => kv.1 ≠ "" && decide (nowMs - kv.2 ≤ opts.lockMaxAgeMs))).length
        ≤ (st.autoAcceptedTradeLock ++ [(jsTrim (optStr c.tradeId), nowMs)]).length :=
          List.length_filter_le _ _
      _ = st.autoAcceptedTradeLock.length + 1 := by
          rw [List.length_append]
          simp
      _ ≤ _ := hlen
  rw [pruneListByLimit_eq_of_le hsub]
  refine List.mem_filter.mpr ⟨List.mem_append_left _ hmem, ?_⟩
  simp [htid]
  omega

/-- The accept-quote pipeline loop (tradeAuto.js lines 757-800) with its
per-candidate outcomes recorded alongside the threaded state: the same
`actionsLeft`-guarded traversal as `runQueue`. -/
def runAcceptQueue (opts : DriverOpts) (nowMs : Int)
    (myRfqTradeIds terminalTradeIds : List String) :
    DriverState → List QuoteCand → DriverState × List (QuoteCand × AcceptOutcome)
  | st, [] => (st, [])
  | st, c :: rest =>
    if st.actionsLeft ≤ 0 then (st, [])
    else
      let r := acceptQuoteStep opts nowMs myRfqTradeIds terminalTradeIds st c
      let t := runAcceptQueue opts nowMs myRfqTradeIds terminalTradeIds r.1 rest
      (t.1, (c, r.2) :: t.2)

/-- How many candidates naming trade id `tid` the accept-quote loop
actually accepted. -/
def acceptedForCount (opts : DriverOpts) (nowMs : Int)
    (myRfqTradeIds terminalTradeIds : List String) (st : DriverState)
    (cs : List QuoteCand) (tid : String) : Nat :=
  ((runAcceptQueue opts nowMs myRfqTradeIds terminalTradeIds st cs).2.filter
    (fun p => decide (jsTrim (optStr p.1.tradeId) = tid) && decide (p.2 = .accepted))).length

theorem runAcceptQueue_fst (opts : DriverOpts) (nowMs : Int)
    (myRfqTradeIds terminalTradeIds : List String) :
    ∀ (cs : List QuoteCand) (st : DriverState),
      (runAcceptQueue opts nowMs myRfqTradeIds terminalTradeIds st cs).1 =
        runQueue (fun s c => (acceptQuoteStep opts nowMs myRfqTradeIds terminalTradeIds s c).1)
          st cs := by
  intro cs
  induction cs with
  | nil => intro st; rfl
  | cons c rest ih =>
    intro st
    unfold runAcceptQueue runQueue
    split
    · rfl
    · exact ih _

theorem runAcceptQueue_cons (opts : DriverOpts) (nowMs : Int)
    (myRfqTradeIds terminalTradeIds : List String) (st : DriverState)
    (c : QuoteCand) (rest : List QuoteCand) :
    runAcceptQueue opts nowMs myRfqTradeIds terminalTradeIds st (c :: rest) =
      if st.actionsLeft ≤ 0 then (st, [])
      else
        ((runAcceptQueue opts nowMs myRfqTradeIds terminalTradeIds
            (acceptQuoteStep opts nowMs myRfqTradeIds terminalTradeIds st c).1 rest).1,
          (c, (acceptQuoteStep opts nowMs myRfqTradeIds terminalTradeIds st c).2) ::
            (runAcceptQueue opts nowMs myRfqTradeIds terminalTradeIds
              (acceptQuoteStep opts nowMs myRfqTradeIds terminalTradeIds st c).1 rest).2) := by
  conv_lhs => unfold runAcceptQueue

theorem acceptedForCount_cons (opts : DriverOpts) (nowMs : Int)
    (myRfqTradeIds terminalTradeIds : List String) (st : DriverState)
    (c : QuoteCand) (rest : List QuoteCand) (tid : String) :
    acceptedForCount opts nowMs myRfqTradeIds terminalTradeIds st (c :: rest) tid =
      if st.actionsLeft ≤ 0 then 0
      else
        (if jsTrim (optStr c.tradeId) = tid ∧
            (acceptQuoteStep opts nowMs myRfqTradeIds terminalTradeIds st c).2 = .accepted
          then 1 else 0) +
        acceptedForCount opts nowMs myRfqTradeIds terminalTradeIds
          (acceptQuoteStep opts nowMs myRfqTradeIds terminalTradeIds st c).1 rest tid := by
  unfold acceptedForCount
  rw [runAcceptQueue_cons]
  split
  · simp
  · rw [List.filter_cons]
    by_cases hc : jsTrim (optStr c.tradeId) = tid ∧
        (acceptQuoteStep opts nowMs myRfqTradeIds terminalTradeIds st c).2 = .accepted
    · rw [if_pos hc, if_pos (by simp [hc.1, hc.2])]
      simp [Nat.add_comm]
    · rw [if_neg hc, if_neg (by simpa [Decidable.not_and_iff_or_not] using hc)]
      simp

theorem acceptedForCount_zero_of_locked (opts : DriverOpts) (nowMs : Int)
    (myRfqTradeIds terminalTradeIds : List String) (tid : String)
    (hAge : 0 ≤ opts.lockMaxAgeMs) (htid : tid ≠ "") :
    ∀ (cs : List QuoteCand) (st : DriverState),
      (tid, nowMs) ∈ st.autoAcceptedTradeLock →
      st.autoAcceptedTradeLock.length + cs.length ≤
        (max 1 (max opts.maxTrades opts.preimageMax)).toNat →
      acceptedForCount opts nowMs myRfqTradeIds terminalTradeIds st cs tid = 0 := by
  intro cs
  induction cs with
  | nil => intro st _ _; rfl
  | cons c rest ih =>
    intro st hmem hlen
    rw [List.length_cons] at hlen
    rw [acceptedForCount_cons]
    split
    · rfl
    · by_cases hct : jsTrim (optStr c.tradeId) = tid
      · have hstep : acceptQuoteStep opts nowMs myRfqTradeIds terminalTradeIds st c =
            (st, .skipped) :=
          acceptQuoteStep_skipped_of_locked (by rw [hct]; exact mem_lookup_isSome hmem)
        rw [hstep]
        rw [if_neg (by simp)]
        rw [Nat.zero_add]
        exact ih st hmem (by omega)
      · rw [if_neg (fun hx => hct hx.1)]
        rw [Nat.zero_add]
        have hl1 := @acceptQuoteStep_lock_len_le opts nowMs myRfqTradeIds terminalTradeIds st c
        exact ih _
          (acceptQuoteStep_lock_mem_preserved hAge htid hmem (by omega))
          (by omega)

theorem acceptedForCount_le_one_aux (opts : DriverOpts) (nowMs : Int)
    (myRfqTradeIds terminalTradeIds : List String) (tid : String)
    (hAge : 0 ≤ opts.lockMaxAgeMs) :
    ∀ (cs : List QuoteCand) (st : DriverState),
      st.autoAcceptedTradeLock.length + cs.length ≤
        (max 1 (max opts.maxTrades opts.preimageMax)).toNat →
      acceptedForCount opts nowMs myRfqTradeIds terminalTradeIds st cs tid ≤ 1 := by
  intro cs
  induction cs with
  | nil => intro st _; exact Nat.zero_le 1
  | cons c rest ih =>
    intro st hlen
    rw [List.length_cons] at hlen
    rw [acceptedForCount_cons]
    split
    · exact Nat.zero_le 1
    · by_cases hc : jsTrim (optStr c.tradeId) = tid ∧
          (acceptQuoteStep opts nowMs myRfqTradeIds terminalTradeIds st c).2 = .accepted
      · rw [if_pos hc]
        obtain ⟨hf1, hf2, -⟩ := acceptQuoteStep_accepted_facts hAge hc.2
        have htid : tid ≠ "" := by rw [← hc.1]; exact hf1
        have hmem : (tid, nowMs) ∈
            (acceptQuoteStep opts nowMs myRfqTradeIds terminalTradeIds st c).1.autoAcceptedTradeLock := by
          rw [← hc.1]; exact hf2
        have hl1 := @acceptQuoteStep_lock_len_le opts nowMs myRfqTradeIds terminalTradeIds st c
        have hz := acceptedForCount_zero_of_locked opts nowMs myRfqTradeIds terminalTradeIds tid
          hAge htid rest _ hmem (by omega)
        rw [hz]
      · rw [if_neg hc]
        rw [Nat.zero_add]
        have hl1 := @acceptQuoteStep_lock_len_le opts nowMs myRfqTradeIds terminalTradeIds st c
        exact ih _ (by omega)

/-- C7: the accept-quote pipeline accepts at most one quote per trade id.
A successful accept records the trade id in `auto_accepted_trade_lock` and
the quote signature in `auto_accepted_quote_sig`; while the lock entry is
present every quote event naming that trade id is skipped; and the loop
recorded here is the pipeline's `runQueue` traversal. Hypotheses: a
non-negative lock age limit, and initial lock size plus queue length
within the lock's pruning cap, so the fresh lock entry is never pruned
during the tick. -/
theorem accept_quote_at_most_one (opts : DriverOpts) (nowMs : Int)
    (myRfqTradeIds terminalTradeIds : List String) (st0 : DriverState)
    (cs : List QuoteCand) (tid : String)
    (hAge : 0 ≤ opts.lockMaxAgeMs)
    (hLen : st0.autoAcceptedTradeLock.length + cs.length ≤
        (max 1 (max opts.maxTrades opts.preimageMax)).toNat) :
    acceptedForCount opts nowMs myRfqTradeIds terminalTradeIds st0 cs tid ≤ 1 ∧
    (∀ (st : DriverState) (c : QuoteCand),
      (acceptQuoteStep opts nowMs myRfqTradeIds terminalTradeIds st c).2 = .accepted →
        ((acceptQuoteStep opts nowMs myRfqTradeIds terminalTradeIds
            st c).1.autoAcceptedTradeLock.lookup (jsTrim (optStr c.tradeId))).isSome = true ∧
        envelopeSig c.sig ∈
          (acceptQuoteStep opts nowMs myRfqTradeIds terminalTradeIds st c).1.autoAcceptedQuoteSig) ∧
    (∀ (st : DriverState) (c : QuoteCand),
      (st.autoAcceptedTradeLock.lookup (jsTrim (optStr c.tradeId))).isSome = true →
        acceptQuoteStep opts nowMs myRfqTradeIds terminalTradeIds st c = (st, .skipped)) ∧
    (runAcceptQueue opts nowMs myRfqTradeIds terminalTradeIds st0 cs).1 =
      runQueue (fun s c => (acceptQuoteStep opts nowMs myRfqTradeIds terminalTradeIds s c).1)
        st0 cs := by
  refine ⟨acceptedForCount_le_one_aux opts nowMs myRfqTradeIds terminalTradeIds tid hAge cs st0
    hLen, ?_, ?_, runAcceptQueue_fst opts nowMs myRfqTradeIds terminalTradeIds cs st0⟩
  · intro st c h
    obtain ⟨-, hmem, hsig⟩ := acceptQuoteStep_accepted_facts hAge h
    exact ⟨mem_lookup_isSome hmem, hsig⟩
  · intro st c h
    exact acceptQuoteStep_skipped_of_locked h

/-- A driver state at the top of a tick (fresh budget). -/
def c7st : DriverState := { st00 with actionsLeft := 12 }

/-- First quote for trade `t1`. -/
def c7q1 : QuoteCand :=
  { tradeId := some "t1", sig := some (String.mk (List.replicate 128 'a')),
    ts := some 5000000, toolOk := true }

/-- Second quote for the same trade `t1`. -/
def c7q2 : QuoteCand :=
  { tradeId := some "t1", sig := some (String.mk (List.replicate 128 'b')),
    ts := some 5000000, toolOk := true }

set_option maxRecDepth 8000 in
/-- Witness for C7: two quotes naming the same local-RFQ trade yield
exactly one accept, within the proved at-most-one bound. -/
theorem accept_quote_at_most_one_witness :
    acceptedForCount opts0 5000000 ["t1"] [] c7st [c7q1, c7q2] "t1" = 1 ∧
    acceptedForCount opts0 5000000 ["t1"] [] c7st [c7q1, c7q2] "t1" ≤ 1 :=
  ⟨by rfl,
    (accept_quote_at_most_one opts0 5000000 ["t1"] [] c7st [c7q1, c7q2] "t1"
      (by decide) (by decide)).1⟩
